import Mathlib

/-!
Shallow embedding of the decode-driver test client in
`src/content/common/gpu/media/video_decode_accelerator_unittest.cc`
(Tizen_Crosswalk Chromium snapshot).

The encoded byte stream is a `List Nat` (one entry per byte, values < 256 at
well-formed inputs).  `std::string::operator[]` is modelled by `List.getD _ _ 0`;
all theorems which depend on byte values carry explicit in-range hypotheses.
Fallible paths (`CHECK` failures, out-of-range container accesses) are
modelled with `Option`: `none` means the C++ program would crash.
-/

namespace VDATest

/-- `LookingAtNAL(encoded, pos)` (line 768): true iff the four bytes at `pos`
are the Annex-B start code `00 00 00 01`. -/
def lookingAtNAL (d : List Nat) (pos : Nat) : Bool :=
  d.getD pos 0 == 0 && d.getD (pos + 1) 0 == 0 &&
  d.getD (pos + 2) 0 == 0 && d.getD (pos + 3) 0 == 1

/-- The scanning loop of `GetBytesForNextNALU` (lines 835-838): advance `e`
while at least 4 bytes remain and `e` is not at a start code. -/
def naluScan (d : List Nat) (e : Nat) : Nat :=
  if _h : e + 4 ≤ d.length ∧ lookingAtNAL d e = false then
    naluScan d (e + 1)
  else e
termination_by d.length - e
decreasing_by omega

/-- `GLRenderingVDAClient::GetBytesForNextNALU` (lines 828-841).  Returns the
new `*end_pos`; the fragment bytes are `encoded_data_.substr(start, end-start)`
taken by the caller.  `none` models the `CHECK(LookingAtNAL(...))` failure. -/
def getBytesForNextNALU (d : List Nat) (startPos : Nat) : Option Nat :=
  if startPos + 4 > d.length then some startPos
  else if lookingAtNAL d startPos then
    let e := naluScan d (startPos + 4)
    some (if e + 3 ≥ d.length then d.length else e)
  else none

/-- Result of one fragmenter call: the fragment bytes, the new cursor
(`*end_pos`), and the increments applied to `num_skipped_fragments_` and
`num_queued_fragments_` during the call. -/
structure FragResult where
  bytes : List Nat
  endPos : Nat
  skipped : Nat
  queued : Nat
deriving Repr, DecidableEq

/-- The h.264 branch of `GetBytesForNextFragment` (lines 816-822): one NALU
starting at `startPos`; `num_queued_fragments_` is incremented iff the cursor
moved. -/
def nextNALUFragment (d : List Nat) (startPos : Nat) : Option FragResult :=
  match getBytesForNextNALU d startPos with
  | none => none
  | some e =>
    some { bytes := (d.drop startPos).take (e - startPos)
           endPos := e
           skipped := 0
           queued := if startPos == e then 0 else 1 }

/-- `GLRenderingVDAClient::GetBytesForNextFrame` (lines 843-856), the VP8/IVF
branch: on the very first call skip the 32-byte IVF file header; read the
4-byte little-endian frame size; skip 12 bytes of frame header (the size field
plus 8 further bytes); the payload is the next `frame_size` bytes
(`substr` clamps the length at end of data, as `List.take` does). -/
def getBytesForNextFrame (d : List Nat) (startPos0 : Nat) : FragResult :=
  let startPos := if startPos0 == 0 then 32 else startPos0
  let frameSize := d.getD startPos 0 + 256 * d.getD (startPos + 1) 0 +
      65536 * d.getD (startPos + 2) 0 + 16777216 * d.getD (startPos + 3) 0
  let payloadPos := startPos + 12
  { bytes := (d.drop payloadPos).take frameSize
    endPos := payloadPos + frameSize
    skipped := 0
    queued := 1 }

/-- `media::H264PROFILE_MAX` / `media::VP8PROFILE_MAX`.  Modelled from the
Chromium `media::VideoCodecProfile` enum of this snapshot (the header is not
part of this repository's sources); only the h.264-vs-VP8 dispatch matters. -/
def H264PROFILE_MAX : Int := 11

def VP8PROFILE_MAX : Int := 12

/-- `GLRenderingVDAClient::GetBytesForNextFragment` (lines 814-826). -/
def getBytesForNextFragment (profile : Int) (d : List Nat) (startPos : Nat) :
    Option FragResult :=
  if profile < H264PROFILE_MAX then nextNALUFragment d startPos
  else some (getBytesForNextFrame d startPos)

theorem naluScan_ge (d : List Nat) (e : Nat) : e ≤ naluScan d e := by
  rw [naluScan]
  split
  · exact Nat.le_trans (Nat.le_succ e) (naluScan_ge d (e + 1))
  · exact Nat.le_refl e
termination_by d.length - e
decreasing_by omega

theorem getBytesForNextNALU_ge (d : List Nat) (s e2 : Nat)
    (hlen : s + 4 ≤ d.length) (h : getBytesForNextNALU d s = some e2) :
    s + 4 ≤ e2 := by
  unfold getBytesForNextNALU at h
  rw [if_neg (by omega)] at h
  by_cases hl : lookingAtNAL d s
  · rw [if_pos hl] at h
    simp only [Option.some.injEq] at h
    have hge := naluScan_ge d (s + 4)
    split at h <;> omega
  · rw [if_neg hl] at h
    exact absurd h (by simp)

/-- The skip loop of `GetBytesForFirstFragment` (lines 800-806), h.264 only:
while more than 4 bytes remain past `e`, stop and return the fragment at `e`
if the first byte after the start code is an SPS NAL (low 5 bits = 7),
else skip one NALU, counting it. On fall-through the cursor is restored to
`startPos` and the empty string is returned (lines 807-808). -/
def firstFragmentLoop (d : List Nat) (startPos e skips : Nat) :
    Option FragResult :=
  if _h : e + 4 < d.length then
    if d.getD (e + 4) 0 &&& 31 == 7 then
      (nextNALUFragment d e).map fun r => { r with skipped := skips }
    else
      match h2 : getBytesForNextNALU d e with
      | none => none
      | some e2 => firstFragmentLoop d startPos e2 (skips + 1)
  else some { bytes := [], endPos := startPos, skipped := skips, queued := 0 }
termination_by d.length - e
decreasing_by
  have := getBytesForNextNALU_ge d e e2 (by omega) h2
  omega

/-- `GLRenderingVDAClient::GetBytesForFirstFragment` (lines 797-812). -/
def getBytesForFirstFragment (profile : Int) (d : List Nat) (startPos : Nat) :
    Option FragResult :=
  if profile < H264PROFILE_MAX then firstFragmentLoop d startPos startPos 0
  else some (getBytesForNextFrame d startPos)

/-! ## ThrottlingVDAClient (lines 243-392)

Times (`base::TimeTicks`, `base::TimeDelta`) are modelled as `Int`
microseconds; the null `TimeTicks` sentinel of `next_frame_delivered_time_`
is `Option.none`.  Calls forwarded to the wrapped client and to
`reuse_picture_cb_` are recorded in the `delivered` / `recycled` logs, and
each `PostDelayedTask(CallClientPictureReady, stream_version_)` is recorded
in `scheduled` (the epoch the tick was tagged with when scheduled). -/

/-- `media::Picture`: the two ids carried by a decoded picture. -/
structure Picture where
  pictureBufferId : Nat
  bitstreamBufferId : Nat
deriving Repr, DecidableEq

/-- State of a `ThrottlingVDAClient`, plus observation logs. -/
structure Throttle where
  /-- `next_frame_delivered_time_`; `none` = null `TimeTicks`. -/
  nextFrameDeliveredTime : Option Int
  /-- `frame_duration_` = 1 second / fps. -/
  frameDuration : Int
  /-- `num_decoded_frames_`. -/
  numDecodedFrames : Nat
  /-- `stream_version_`. -/
  streamVersion : Nat
  /-- `pending_pictures_`. -/
  pendingPictures : List Picture
  /-- log of `client_->PictureReady(...)` forwards (deliveries). -/
  delivered : List Picture
  /-- log of `reuse_picture_cb_.Run(id)` calls (drops / recycles). -/
  recycled : List Nat
  /-- log of scheduled `CallClientPictureReady` ticks: the `stream_version_`
  each task was bound with. -/
  scheduled : List Nat
deriving Repr, DecidableEq

/-- `ThrottlingVDAClient::PictureReady` (lines 312-328): count the frame;
if the queue was empty schedule a delivery tick bound to the current
`stream_version_`; enqueue the picture. -/
def throttlePictureReady (th : Throttle) (pic : Picture) : Throttle :=
  let th := { th with numDecodedFrames := th.numDecodedFrames + 1 }
  let th :=
    if th.pendingPictures.isEmpty then
      { th with scheduled := th.scheduled ++ [th.streamVersion] }
    else th
  { th with pendingPictures := th.pendingPictures ++ [pic] }

/-- `ThrottlingVDAClient::CallClientPictureReady` (lines 330-357).
`version` is the epoch the tick was scheduled with, `now` the current time.
`none` models `pending_pictures_.front()` on an empty deque (the scheduling
discipline never fires a same-version tick with an empty queue). -/
def callClientPictureReady (th : Throttle) (version : Nat) (now : Int) :
    Option Throttle :=
  if version ≠ th.streamVersion then some th
  else
    match th.pendingPictures with
    | [] => none
    | pic :: rest =>
      let t0 := th.nextFrameDeliveredTime.getD now
      let th :=
        if t0 + th.frameDuration < now then
          { th with recycled := th.recycled ++ [pic.pictureBufferId] }
        else
          { th with delivered := th.delivered ++ [pic] }
      let th := { th with pendingPictures := rest
                          nextFrameDeliveredTime := some (t0 + th.frameDuration) }
      if rest.isEmpty then some th
      else some { th with scheduled := th.scheduled ++ [th.streamVersion] }

/-- `ThrottlingVDAClient::NotifyResetDone` (lines 380-388): bump the epoch,
recycle every queued picture, null out `next_frame_delivered_time_`
(then forward `NotifyResetDone` to the wrapped client). -/
def throttleNotifyResetDone (th : Throttle) : Throttle :=
  { th with streamVersion := th.streamVersion + 1
            recycled := th.recycled ++
              th.pendingPictures.map Picture.pictureBufferId
            pendingPictures := []
            nextFrameDeliveredTime := none }

/-! ## GLRenderingVDAClient (lines 394-909)

The client is modelled in the `rendering_fps == 0` configuration, in which
`throttling_client_` is null and `num_decoded_frames()` is the client's own
counter (lines 899-902).  Calls into the decoder, the rendering helper and
the `ClientStateNotification` barrier are recorded as effects.  `CHECK`
failures and null-decoder dereferences are `none`. -/

/-- `ClientState` (lines 230-241), as the `int` values the source relies on. -/
def CS_CREATED : Nat := 0
def CS_DECODER_SET : Nat := 1
def CS_INITIALIZED : Nat := 2
def CS_FLUSHING : Nat := 3
def CS_FLUSHED : Nat := 4
def CS_RESETTING : Nat := 5
def CS_RESET : Nat := 6
def CS_ERROR : Nat := 7
def CS_DESTROYED : Nat := 8
def CS_MAX : Nat := 9

/-- `ResetPoint` (lines 103-107). -/
def START_OF_STREAM_RESET : Int := -3
def MID_STREAM_RESET : Int := -2
def END_OF_STREAM_RESET : Int := -1

/-- Externally observable calls made by the client. -/
inductive Eff
  /-- `decoder_->Decode(bitstream_buffer)` with the buffer id and payload. -/
  | decode (id : Nat) (bytes : List Nat)
  /-- `decoder_->Flush()`. -/
  | flush
  /-- `decoder_->Reset()`. -/
  | reset
  /-- `decoder_.release()->Destroy()`. -/
  | destroy
  /-- `note_->Notify(state)`. -/
  | notify (state : Nat)
  /-- `rendering_helper_->RenderTexture(texture_id)`. -/
  | render (textureId : Nat)
  /-- `decoder_->ReusePictureBuffer(id)`, immediate. -/
  | reuse (pictureBufferId : Nat)
  /-- `ReusePictureBuffer(id)` posted after `kReuseDelay`. -/
  | reuseDelayed (pictureBufferId : Nat)
  /-- `rendering_helper_->CreateTexture(...)` returning `textureId`. -/
  | createTexture (textureId : Nat)
  /-- `rendering_helper_->DeleteTexture(textureId)`. -/
  | deleteTexture (textureId : Nat)
  /-- `decoder_->AssignPictureBuffers(buffers)` with `buffers.size()`. -/
  | assignBuffers (count : Nat)
deriving Repr, DecidableEq

/-- State of one `GLRenderingVDAClient` (fields, lines 482-506), plus the
`effs` log of calls it has made. -/
structure Client where
  /-- `encoded_data_`. -/
  encodedData : List Nat
  /-- `num_in_flight_decodes_` (const). -/
  numInFlightDecodes : Int
  /-- `outstanding_decodes_`. -/
  outstandingDecodes : Int
  /-- `encoded_data_next_pos_to_decode_`. -/
  nextPosToDecode : Nat
  /-- `next_bitstream_buffer_id_`. -/
  nextBitstreamBufferId : Nat
  /-- `!decoder_.get()`, i.e. `decoder_deleted()`. -/
  decoderDeleted : Bool
  /-- `outstanding_texture_ids_` (a `std::set`, kept as its element list). -/
  outstandingTextureIds : List Nat
  /-- `remaining_play_throughs_`. -/
  remainingPlayThroughs : Nat
  /-- `reset_after_frame_num_` (a frame number ≥ 0 or a `ResetPoint`). -/
  resetAfterFrameNum : Int
  /-- `delete_decoder_state_` (a `ClientState`, or `N < 0` for "after `-N`
  `Decode()` calls"). -/
  deleteDecoderState : Int
  /-- `state_`. -/
  state : Nat
  /-- `num_skipped_fragments_`. -/
  numSkippedFragments : Nat
  /-- `num_queued_fragments_`. -/
  numQueuedFragments : Nat
  /-- `num_decoded_frames_`. -/
  numDecodedFrames : Nat
  /-- `num_done_bitstream_buffers_`. -/
  numDoneBitstreamBuffers : Nat
  /-- `picture_buffers_by_id_`: association list id ↦ texture id. -/
  pictureBuffersById : List (Nat × Nat)
  /-- `profile_`. -/
  profile : Int
  /-- `suppress_rendering_`. -/
  suppressRendering : Bool
  /-- `delay_reuse_after_frame_num_`. -/
  delayReuseAfterFrameNum : Int
  /-- log of calls made so far. -/
  effs : List Eff
deriving Repr, DecidableEq

/-- The state-cascading loop in `DeleteDecoder` (lines 792-794):
`for (int i = state_ + 1; i < CS_MAX; ++i) SetState(i)`.  Each iteration is
`SetState` with `decoder_deleted()` already true, so reaching the
delete-decoder trigger fails its `CHECK(!decoder_deleted())` (line 777). -/
def cascadeFrom (c : Client) (i : Nat) : Option Client :=
  if _h : i < CS_MAX then
    if c.remainingPlayThroughs == 0 ∧ (i : Int) == c.deleteDecoderState then
      none
    else
      cascadeFrom { c with effs := c.effs ++ [Eff.notify i], state := i } (i + 1)
  else some c
termination_by CS_MAX - i
decreasing_by simp only [CS_MAX] at *; omega

/-- `GLRenderingVDAClient::DeleteDecoder` (lines 782-795): no-op when the
decoder is already gone; otherwise `Destroy()` the decoder, clear
`encoded_data_`, delete every outstanding texture, and cascade the observable
state through the remaining `ClientState`s. -/
def deleteDecoder (c : Client) : Option Client :=
  if c.decoderDeleted then some c
  else
    cascadeFrom
      { c with
        decoderDeleted := true
        effs := c.effs ++ [Eff.destroy] ++
          c.outstandingTextureIds.map Eff.deleteTexture
        encodedData := []
        outstandingTextureIds := [] }
      (c.state + 1)

/-- `GLRenderingVDAClient::SetState` (lines 773-780).  The delete-decoder
trigger reads fields the preceding `state_` assignment does not touch, so it
is tested on `c` directly. -/
def setState (c : Client) (newState : Nat) : Option Client :=
  if c.remainingPlayThroughs == 0 ∧ (newState : Int) == c.deleteDecoderState then
    if c.decoderDeleted then none  -- CHECK(!decoder_deleted())
    else
      deleteDecoder
        { c with effs := c.effs ++ [Eff.notify newState], state := newState }
  else some { c with effs := c.effs ++ [Eff.notify newState], state := newState }

/-- `GLRenderingVDAClient::DecodeNextFragment` (lines 858-897). -/
def decodeNextFragment (c : Client) : Option Client :=
  if c.decoderDeleted then some c
  else if c.nextPosToDecode == c.encodedData.length then
    if c.outstandingDecodes == 0 then
      setState { c with effs := c.effs ++ [Eff.flush] } CS_FLUSHING
    else some c
  else
    match
      (if c.nextPosToDecode == 0 then
        getBytesForFirstFragment c.profile c.encodedData 0
      else
        getBytesForNextFragment c.profile c.encodedData c.nextPosToDecode) with
    | none => none
    | some r =>
      if c.remainingPlayThroughs == 0 ∧
          -c.deleteDecoderState =
            (((c.nextBitstreamBufferId + 1) % 2 ^ 30 : Nat) : Int) then
        deleteDecoder { c with
          numSkippedFragments := c.numSkippedFragments + r.skipped
          numQueuedFragments := c.numQueuedFragments + r.queued
          effs := c.effs ++ [Eff.decode c.nextBitstreamBufferId r.bytes]
          nextBitstreamBufferId := (c.nextBitstreamBufferId + 1) % (2 ^ 30)
          outstandingDecodes := c.outstandingDecodes + 1
          nextPosToDecode := r.endPos }
      else
        some { c with
          numSkippedFragments := c.numSkippedFragments + r.skipped
          numQueuedFragments := c.numQueuedFragments + r.queued
          effs := c.effs ++ [Eff.decode c.nextBitstreamBufferId r.bytes]
          nextBitstreamBufferId := (c.nextBitstreamBufferId + 1) % (2 ^ 30)
          outstandingDecodes := c.outstandingDecodes + 1
          nextPosToDecode := r.endPos }

/-- The submission loop of `NotifyInitializeDone` (lines 692-693):
`for (int i = 0; i < num_in_flight_decodes_; ++i) DecodeNextFragment();`. -/
def decodeLoop (c : Client) : Nat → Option Client
  | 0 => some c
  | n + 1 =>
    match decodeNextFragment c with
    | none => none
    | some c2 => decodeLoop c2 n

/-- `GLRenderingVDAClient::NotifyInitializeDone` (lines 683-695).
A `decoder_->Reset()` on a decoder deleted by the preceding `SetState` is a
null dereference (`none`).  The wall-clock stamp `initialize_done_ticks_`
(used only for fps reporting) is not modelled. -/
def notifyInitializeDone (c : Client) : Option Client :=
  match setState c CS_INITIALIZED with
  | none => none
  | some c1 =>
    if c1.resetAfterFrameNum == START_OF_STREAM_RESET then
      if c1.decoderDeleted then none
      else some { c1 with effs := c1.effs ++ [Eff.reset] }
    else decodeLoop c1 c1.numInFlightDecodes.toNat

/-- `GLRenderingVDAClient::NotifyEndOfBitstreamBuffer` (lines 697-706). -/
def notifyEndOfBitstreamBuffer (c : Client) : Option Client :=
  decodeNextFragment { c with
    numDoneBitstreamBuffers := c.numDoneBitstreamBuffers + 1
    outstandingDecodes := c.outstandingDecodes - 1 }

/-- `GLRenderingVDAClient::NotifyFlushDone` (lines 708-718). -/
def notifyFlushDone (c : Client) : Option Client :=
  if c.decoderDeleted then some c
  else
    match setState c CS_FLUSHED with
    | none => none
    | some c1 =>
      if c1.decoderDeleted then
        some { c1 with remainingPlayThroughs := c1.remainingPlayThroughs - 1 }
      else
        setState
          { c1 with remainingPlayThroughs := c1.remainingPlayThroughs - 1
                    effs := c1.effs ++ [Eff.reset] }
          CS_RESETTING

/-- `GLRenderingVDAClient::NotifyResetDone` (lines 720-744). -/
def notifyResetDone (c : Client) : Option Client :=
  if c.decoderDeleted then some c
  else if c.resetAfterFrameNum == MID_STREAM_RESET then
    decodeNextFragment { c with resetAfterFrameNum := END_OF_STREAM_RESET }
  else if c.resetAfterFrameNum == START_OF_STREAM_RESET then
    decodeLoop { c with resetAfterFrameNum := END_OF_STREAM_RESET }
      c.numInFlightDecodes.toNat
  else if c.remainingPlayThroughs ≠ 0 then
    notifyInitializeDone { c with nextPosToDecode := 0 }
  else
    match setState c CS_RESET with
    | none => none
    | some c1 => if c1.decoderDeleted then some c1 else deleteDecoder c1

/-- `GLRenderingVDAClient::PictureReady` (lines 641-681), with
`throttling_client_` null so `num_decoded_frames()` is `num_decoded_frames_`.
The `CHECK_LT(state_, CS_RESET)` and `CHECK_LE(bitstream id, next id)`
failures and the null map lookup (`CHECK(picture_buffer)`) are `none`.
The wall-clock log `frame_delivery_times_` (used only for fps reporting) is
not modelled. -/
def pictureReady (c : Client) (pic : Picture) : Option Client :=
  if ¬ c.state < CS_RESET then none
  else if c.decoderDeleted then some c
  else if ¬ pic.bitstreamBufferId ≤ c.nextBitstreamBufferId then none
  else
    let c := { c with numDecodedFrames := c.numDecodedFrames + 1 }
    let c :=
      if c.remainingPlayThroughs == 1 ∧
          c.resetAfterFrameNum == (c.numDecodedFrames : Int) then
        { c with resetAfterFrameNum := MID_STREAM_RESET
                 effs := c.effs ++ [Eff.reset]
                 nextPosToDecode := 0 }
      else c
    match (c.pictureBuffersById.lookup pic.pictureBufferId) with
    | none => none
    | some tex =>
      let c :=
        if ¬ c.suppressRendering then
          { c with effs := c.effs ++ [Eff.render tex] }
        else c
      if (c.numDecodedFrames : Int) > c.delayReuseAfterFrameNum then
        some { c with effs := c.effs ++ [Eff.reuseDelayed pic.pictureBufferId] }
      else
        some { c with effs := c.effs ++ [Eff.reuse pic.pictureBufferId] }

/-- The allocation loop of `ProvidePictureBuffers` (lines 615-627), one
iteration per requested buffer; `texIds` are the texture handles the
rendering helper returns, one per iteration.  The two `CHECK(...insert...)`
calls (set and map insertion must be fresh) fail as `none`. -/
def provideLoop (c : Client) : List Nat → Option Client
  | [] => some c
  | t :: ts =>
    if t ∈ c.outstandingTextureIds then none
    else if (c.pictureBuffersById.lookup c.pictureBuffersById.length).isSome then
      none
    else
      provideLoop { c with
        effs := c.effs ++ [Eff.createTexture t]
        outstandingTextureIds := c.outstandingTextureIds ++ [t]
        pictureBuffersById :=
          c.pictureBuffersById ++ [(c.pictureBuffersById.length, t)] } ts

/-- `GLRenderingVDAClient::ProvidePictureBuffers` (lines 607-629). -/
def providePictureBuffers (c : Client) (texIds : List Nat) : Option Client :=
  if c.decoderDeleted then some c
  else
    match provideLoop c texIds with
    | none => none
    | some c1 =>
      some { c1 with effs := c1.effs ++ [Eff.assignBuffers texIds.length] }

/-- `GLRenderingVDAClient::DismissPictureBuffer` (lines 631-639): the id must
be present (`CHECK(it != end)`) and its texture must be erased from the
outstanding set exactly once (`CHECK_EQ(erase(...), 1U)`). -/
def dismissPictureBuffer (c : Client) (id : Nat) : Option Client :=
  match c.pictureBuffersById.lookup id with
  | none => none
  | some tex =>
    if tex ∈ c.outstandingTextureIds then
      some { c with
        outstandingTextureIds := c.outstandingTextureIds.erase tex
        effs := c.effs ++ [Eff.deleteTexture tex]
        pictureBuffersById := c.pictureBuffersById.filter (fun p => p.1 ≠ id) }
    else none

/-- `GLRenderingVDAClient::~GLRenderingVDAClient` (lines 556-561): the full
teardown — `DeleteDecoder()`, `CHECK(decoder_deleted())`,
`STLDeleteValues(&picture_buffers_by_id_)`, `SetState(CS_DESTROYED)`. -/
def destroyClient (c : Client) : Option Client :=
  match deleteDecoder c with
  | none => none
  | some c1 =>
    if ¬ c1.decoderDeleted then none
    else setState { c1 with pictureBuffersById := [] } CS_DESTROYED

/-! ## Fragmenter lemmas -/

theorem naluScan_props (d : List Nat) (e : Nat) :
    (naluScan d e + 4 ≤ d.length → lookingAtNAL d (naluScan d e) = true) ∧
    (∀ q, e ≤ q → q < naluScan d e →
      q + 4 ≤ d.length ∧ lookingAtNAL d q = false) := by
  rw [naluScan]
  split
  next h =>
    obtain ⟨h1, h2⟩ := h
    have ih := naluScan_props d (e + 1)
    refine ⟨ih.1, ?_⟩
    intro q hq1 hq2
    rcases Nat.eq_or_lt_of_le hq1 with heq | hlt
    · exact ⟨by omega, heq ▸ h2⟩
    · exact ih.2 q hlt hq2
  next h =>
    refine ⟨fun hle => ?_, fun q hq1 hq2 => absurd (Nat.lt_of_le_of_lt hq1 hq2)
      (Nat.lt_irrefl e)⟩
    rcases Bool.eq_false_or_eq_true (lookingAtNAL d e) with ht | hf
    · exact ht
    · exact absurd ⟨hle, hf⟩ h
termination_by d.length - e
decreasing_by omega

theorem getBytesForNextNALU_spec (d : List Nat) (s e : Nat)
    (hlook : lookingAtNAL d s = true) (hlen : s + 4 ≤ d.length)
    (h : getBytesForNextNALU d s = some e) :
    s + 4 ≤ e ∧ (e = d.length ∨ (lookingAtNAL d e = true ∧ e + 4 ≤ d.length)) ∧
      ∀ q, s + 4 ≤ q → q < e → q + 4 ≤ d.length → lookingAtNAL d q = false := by
  unfold getBytesForNextNALU at h
  rw [if_neg (by omega), if_pos hlook] at h
  simp only [Option.some.injEq] at h
  have hge := naluScan_ge d (s + 4)
  have hprops := naluScan_props d (s + 4)
  split at h
  next hsnap =>
    subst h
    refine ⟨hlen, Or.inl rfl, fun q hq1 hq2 hq3 => ?_⟩
    exact (hprops.2 q hq1 (by omega)).2
  next hsnap =>
    subst h
    exact ⟨hge, Or.inr ⟨hprops.1 (by omega), by omega⟩,
      fun q hq1 hq2 _ => (hprops.2 q hq1 hq2).2⟩

/-- Skipped-unit hops of the `GetBytesForFirstFragment` scan: `NALUHops d s e k`
holds when position `e` is reached from `s` by discarding `k` whole
start-code-delimited units, none of which began a stream-parameter (SPS,
NAL type 7) unit. -/
inductive NALUHops (d : List Nat) (s : Nat) : Nat → Nat → Prop
  | refl : NALUHops d s s 0
  | step (e e2 k : Nat) : NALUHops d s e k → e + 4 < d.length →
      ¬ d.getD (e + 4) 0 &&& 31 = 7 →
      getBytesForNextNALU d e = some e2 → NALUHops d s e2 (k + 1)

theorem NALUHops.ge (d : List Nat) (s e k : Nat) (h : NALUHops d s e k) :
    s ≤ e := by
  induction h with
  | refl => exact Nat.le_refl s
  | step e e2 k _hops hlt _hsps hnalu ih =>
    have := getBytesForNextNALU_ge d e e2 (by omega) hnalu
    omega

theorem firstFragmentLoop_characterization (d : List Nat) (s : Nat) :
    ∀ n e k r, d.length ≤ e + n → NALUHops d s e k →
      firstFragmentLoop d s e k = some r →
      (r.bytes = [] ∧ r.endPos = s ∧ r.queued = 0) ∨
      (∃ p j, NALUHops d s p j ∧ r.skipped = j ∧ p + 4 < d.length ∧
        d.getD (p + 4) 0 &&& 31 = 7 ∧
        nextNALUFragment d p = some { bytes := r.bytes, endPos := r.endPos,
                                      skipped := 0, queued := r.queued }) := by
  intro n
  induction n with
  | zero =>
    intro e k r hle hhops h
    rw [firstFragmentLoop, dif_neg (by omega : ¬ e + 4 < d.length)] at h
    simp only [Option.some.injEq] at h
    left
    rw [← h]
    exact ⟨rfl, rfl, rfl⟩
  | succ n ih =>
    intro e k r hle hhops h
    rw [firstFragmentLoop] at h
    split at h
    next hlt =>
      split at h
      next hsps =>
        right
        match hnf : nextNALUFragment d e with
        | none => rw [hnf] at h; exact absurd h (by simp)
        | some r0 =>
          rw [hnf] at h
          simp only [Option.map_some', Option.some.injEq] at h
          refine ⟨e, k, hhops, ?_, hlt, by simpa using hsps, ?_⟩
          · rw [← h]
          · rw [← h, hnf]
            have hr0 : r0.skipped = 0 := by
              unfold nextNALUFragment at hnf
              split at hnf
              · exact absurd hnf (by simp)
              · simp only [Option.some.injEq] at hnf
                rw [← hnf]
            congr 1
            cases r0
            simp_all
      next hsps =>
        split at h
        next => exact absurd h (by simp)
        next e2 h2 =>
          have hge := getBytesForNextNALU_ge d e e2 (by omega) h2
          exact ih e2 (k + 1) r (by omega)
            (NALUHops.step e e2 k hhops hlt (by simpa using hsps) h2) h
    next hlt =>
      simp only [Option.some.injEq] at h
      left
      rw [← h]
      exact ⟨rfl, rfl, rfl⟩

theorem nextNALUFragment_found_shape (d : List Nat) (p : Nat) (r : FragResult)
    (hlen : p + 4 ≤ d.length)
    (h : nextNALUFragment d p = some r) :
    p + 4 ≤ r.endPos ∧ r.bytes ≠ [] := by
  unfold nextNALUFragment at h
  match hn : getBytesForNextNALU d p with
  | none => rw [hn] at h; exact absurd h (by simp)
  | some e =>
    rw [hn] at h
    simp only [Option.some.injEq] at h
    have hge := getBytesForNextNALU_ge d p e hlen hn
    subst h
    refine ⟨hge, ?_⟩
    simp only [ne_eq, List.take_eq_nil_iff, List.drop_eq_nil_iff]
    push_neg
    constructor <;> omega

/-! ## Claims C7, C10, C8: the fragmenter -/

/-- **C7**: for the start-code-delimited fragmenter, a unit begins at the
4-byte marker `[0,0,0,1]` and spans from that marker to the next marker or to
the end of the buffer; the initial-position call skips forward, discarding
units and counting each skipped unit, until it reaches a unit whose first
payload byte's low 5 bits equal the stream-parameter-unit type (7), and
returns that unit as the first fragment. -/
theorem C7_startcode_fragmenter (d : List Nat) :
    (∀ pos, lookingAtNAL d pos = true ↔
      (d.getD pos 0 = 0 ∧ d.getD (pos + 1) 0 = 0 ∧
       d.getD (pos + 2) 0 = 0 ∧ d.getD (pos + 3) 0 = 1)) ∧
    (∀ s e, lookingAtNAL d s = true → s + 4 ≤ d.length →
      getBytesForNextNALU d s = some e →
      s + 4 ≤ e ∧ (e = d.length ∨ (lookingAtNAL d e = true ∧ e + 4 ≤ d.length)) ∧
      ∀ q, s + 4 ≤ q → q < e → q + 4 ≤ d.length → lookingAtNAL d q = false) ∧
    (∀ profile : Int, profile < H264PROFILE_MAX → ∀ s r,
      getBytesForFirstFragment profile d s = some r → r.endPos ≠ s →
      ∃ p j, NALUHops d s p j ∧ r.skipped = j ∧ p + 4 < d.length ∧
        d.getD (p + 4) 0 &&& 31 = 7 ∧
        nextNALUFragment d p = some { bytes := r.bytes, endPos := r.endPos,
                                      skipped := 0, queued := r.queued }) := by
  refine ⟨?_, fun s e h1 h2 h3 => getBytesForNextNALU_spec d s e h1 h2 h3, ?_⟩
  · intro pos
    unfold lookingAtNAL
    simp [Bool.and_eq_true, beq_iff_eq, and_assoc]
  · intro profile hp s r h hne
    unfold getBytesForFirstFragment at h
    rw [if_pos hp] at h
    rcases firstFragmentLoop_characterization d s d.length s 0 r (by omega)
      NALUHops.refl h with ⟨_, h2, _⟩ | hfound
    · exact absurd h2 hne
    · exact hfound

/-- Concrete stream for the C7 witness: one non-SPS unit
(`[0,0,0,1,0x41,5]`), then an SPS unit (`[0,0,0,1,0x67,9]`). -/
def dExC7 : List Nat := [0, 0, 0, 1, 0x41, 5, 0, 0, 0, 1, 0x67, 9]

theorem C7_startcode_fragmenter_witness :
    (lookingAtNAL dExC7 6 = true ↔
      (dExC7.getD 6 0 = 0 ∧ dExC7.getD 7 0 = 0 ∧
       dExC7.getD 8 0 = 0 ∧ dExC7.getD 9 0 = 1)) ∧
    (0 + 4 ≤ 6 ∧
      (6 = dExC7.length ∨ (lookingAtNAL dExC7 6 = true ∧ 6 + 4 ≤ dExC7.length)) ∧
      ∀ q, 0 + 4 ≤ q → q < 6 → q + 4 ≤ dExC7.length → lookingAtNAL dExC7 q = false) ∧
    (∃ p j, NALUHops dExC7 0 p j ∧
      (1 : Nat) = j ∧ p + 4 < dExC7.length ∧ dExC7.getD (p + 4) 0 &&& 31 = 7 ∧
      nextNALUFragment dExC7 p =
        some { bytes := [0, 0, 0, 1, 0x67, 9], endPos := 12,
               skipped := 0, queued := 1 }) := by
  refine ⟨(C7_startcode_fragmenter dExC7).1 6,
    (C7_startcode_fragmenter dExC7).2.1 0 6 (by decide) (by decide) ?_,
    (C7_startcode_fragmenter dExC7).2.2 1 (by decide) 0
      { bytes := [0, 0, 0, 1, 0x67, 9], endPos := 12, skipped := 1, queued := 1 }
      ?_ (by decide)⟩
  · unfold dExC7
    simp [getBytesForNextNALU, naluScan, lookingAtNAL]
  · unfold dExC7
    simp [getBytesForFirstFragment, firstFragmentLoop, nextNALUFragment,
          getBytesForNextNALU, naluScan, lookingAtNAL, H264PROFILE_MAX]
    decide

/-- **C10**: when the start-code scanner is invoked at a true 4-byte start
code with at least 4 bytes remaining it advances the cursor strictly forward
and lands on a start-code boundary or exactly at the end of the data (never
strictly inside a tail shorter than 4 bytes); invoked with fewer than 4 bytes
remaining it returns an empty fragment with the cursor unchanged; and a
first-fragment scan returns an empty fragment exactly when it leaves the
cursor unchanged (no stream-parameter unit found). -/
theorem C10_scanner_progress_and_guards (d : List Nat) :
    (∀ s e, lookingAtNAL d s = true → s + 4 ≤ d.length →
      getBytesForNextNALU d s = some e →
      s < e ∧ (e = d.length ∨ lookingAtNAL d e = true) ∧
      (e < d.length → e + 4 ≤ d.length)) ∧
    (∀ s, s + 4 > d.length →
      getBytesForNextNALU d s = some s ∧
      nextNALUFragment d s =
        some { bytes := [], endPos := s, skipped := 0, queued := 0 }) ∧
    (∀ profile : Int, profile < H264PROFILE_MAX → ∀ s r,
      getBytesForFirstFragment profile d s = some r →
      (r.bytes = [] ↔ r.endPos = s)) := by
  refine ⟨?_, ?_, ?_⟩
  · intro s e h1 h2 h3
    obtain ⟨hge, hor, _⟩ := getBytesForNextNALU_spec d s e h1 h2 h3
    refine ⟨by omega, ?_, ?_⟩
    · rcases hor with h | ⟨h, _⟩
      · exact Or.inl h
      · exact Or.inr h
    · intro hlt
      rcases hor with h | ⟨_, h⟩
      · omega
      · exact h
  · intro s hgt
    have h1 : getBytesForNextNALU d s = some s := by
      unfold getBytesForNextNALU
      rw [if_pos hgt]
    refine ⟨h1, ?_⟩
    unfold nextNALUFragment
    rw [h1]
    simp
  · intro profile hp s r h
    unfold getBytesForFirstFragment at h
    rw [if_pos hp] at h
    rcases firstFragmentLoop_characterization d s d.length s 0 r (by omega)
      NALUHops.refl h with ⟨h1, h2, _⟩ | ⟨p, j, hhops, _, hlt, _, hfrag⟩
    · rw [h1, h2]
      simp
    · have hs := NALUHops.ge d s p j hhops
      have hshape := nextNALUFragment_found_shape d p _ (by omega) hfrag
      simp only at hshape
      constructor
      · intro hb
        exact absurd hb hshape.2
      · intro hend
        omega

/-- Concrete stream for the C10 witness: a single truncated unit and a
2-byte tail after position 6. -/
def dExC10 : List Nat := [0, 0, 0, 1, 0x41, 5, 0, 0]

theorem C10_scanner_progress_and_guards_witness :
    (0 < 8 ∧ ((8 : Nat) = dExC10.length ∨ lookingAtNAL dExC10 8 = true) ∧
      (8 < dExC10.length → 8 + 4 ≤ dExC10.length)) ∧
    (getBytesForNextNALU dExC10 6 = some 6 ∧
      nextNALUFragment dExC10 6 =
        some { bytes := [], endPos := 6, skipped := 0, queued := 0 }) ∧
    (({ bytes := [], endPos := 0, skipped := 1, queued := 0 } : FragResult).bytes
        = [] ↔
     ({ bytes := [], endPos := 0, skipped := 1, queued := 0 } : FragResult).endPos
        = 0) := by
  refine ⟨(C10_scanner_progress_and_guards dExC10).1 0 8 (by decide) (by decide) ?_,
    (C10_scanner_progress_and_guards dExC10).2.1 6 (by decide),
    (C10_scanner_progress_and_guards dExC10).2.2 1 (by decide) 0
      { bytes := [], endPos := 0, skipped := 1, queued := 0 } ?_⟩
  · unfold dExC10
    simp [getBytesForNextNALU, naluScan, lookingAtNAL]
  · unfold dExC10
    simp [getBytesForFirstFragment, firstFragmentLoop, nextNALUFragment,
          getBytesForNextNALU, naluScan, lookingAtNAL, H264PROFILE_MAX]
    decide

/-- Concrete IVF-style stream for the C8 counterexample: 32-byte file
header, then a unit whose 4-byte little-endian length field is 1, 8 further
header bytes, the 1-byte payload `0xAB` at offset 44, and a distinct byte
`0x55` at offset 48 (where the claim's 4+12-byte header layout would place
the payload). -/
def dExC8 : List Nat :=
  List.replicate 32 0 ++ [1, 0, 0, 0] ++ [2, 3, 4, 5, 6, 7, 8, 9] ++
    [0xAB] ++ [0, 0, 0, 0x55]

/-- **C8 (counterexample)**: the claim says a unit is
`[4-byte LE length][12 bytes ignored header][length bytes payload]`, which
would put the 1-byte payload of `dExC8` at offset 32+4+12 = 48 and the new
cursor at 49.  The code reads the payload 12 bytes after the unit start
(offset 44) and leaves the cursor at 45. -/
theorem C8_counterexample :
    getBytesForNextFrame dExC8 0 =
      { bytes := [0xAB], endPos := 45, skipped := 0, queued := 1 } ∧
    dExC8.getD 32 0 + 256 * dExC8.getD 33 0 + 65536 * dExC8.getD 34 0 +
      16777216 * dExC8.getD 35 0 = 1 ∧
    (getBytesForNextFrame dExC8 0).endPos ≠ 32 + 4 + 12 + 1 ∧
    (getBytesForNextFrame dExC8 0).bytes ≠ [dExC8.getD (32 + 4 + 12) 0] := by
  decide

/-- **C8 (amended)**: for the length-prefixed fragmenter, the very first call
skips the fixed 32-byte container header; every unit consists of a 12-byte
header — a 4-byte little-endian length field followed by 8 ignored bytes —
followed by exactly `length` bytes of payload; the returned fragment is the
payload bytes and the new cursor position is immediately after the payload. -/
theorem C8_length_prefixed_fragmenter (d : List Nat) (startPos0 s L : Nat)
    (hs : s = if startPos0 == 0 then 32 else startPos0)
    (hL : L = d.getD s 0 + 256 * d.getD (s + 1) 0 + 65536 * d.getD (s + 2) 0 +
      16777216 * d.getD (s + 3) 0) :
    getBytesForNextFrame d 0 = getBytesForNextFrame d 32 ∧
    (getBytesForNextFrame d startPos0).endPos = s + 12 + L ∧
    (getBytesForNextFrame d startPos0).queued = 1 ∧
    (s + 12 + L ≤ d.length →
      (getBytesForNextFrame d startPos0).bytes.length = L ∧
      ∀ i, i < L → (getBytesForNextFrame d startPos0).bytes.getD i 0 =
        d.getD (s + 12 + i) 0) := by
  subst hs hL
  refine ⟨rfl, by simp [getBytesForNextFrame, Nat.add_assoc], rfl, ?_⟩
  intro hle
  constructor
  · simp only [getBytesForNextFrame, List.length_take, List.length_drop]
    omega
  · intro i hi
    simp only [List.getD_eq_getElem?_getD] at hi
    simp only [getBytesForNextFrame, List.getD_eq_getElem?_getD]
    rw [List.getElem?_take, if_pos hi, List.getElem?_drop]

/-- Concrete stream for the C8 witness: length field 2 at offset 32,
payload `[0xAB, 0xCD]` at offset 44. -/
def dExC8W : List Nat :=
  List.replicate 32 0 ++ [2, 0, 0, 0] ++ [2, 3, 4, 5, 6, 7, 8, 9] ++
    [0xAB, 0xCD] ++ [7, 7]

theorem C8_length_prefixed_fragmenter_witness :
    getBytesForNextFrame dExC8W 0 = getBytesForNextFrame dExC8W 32 ∧
    (getBytesForNextFrame dExC8W 0).endPos = 32 + 12 + 2 ∧
    (getBytesForNextFrame dExC8W 0).queued = 1 ∧
    (32 + 12 + 2 ≤ dExC8W.length →
      (getBytesForNextFrame dExC8W 0).bytes.length = 2 ∧
      ∀ i, i < 2 → (getBytesForNextFrame dExC8W 0).bytes.getD i 0 =
        dExC8W.getD (32 + 12 + i) 0) :=
  C8_length_prefixed_fragmenter dExC8W 0 32 2 (by decide) (by decide)

/-! ## Claims C2, C3: the throttling layer -/

/-- A backlog of delivery ticks processed in order (each entry is the epoch
the tick was scheduled with and the time it fires). -/
def runTicks (th : Throttle) : List (Nat × Int) → Option Throttle
  | [] => some th
  | (v, now) :: rest =>
    match callClientPictureReady th v now with
    | none => none
    | some th2 => runTicks th2 rest

/-- Counter bookkeeping of the throttling layer: every decoded (arrived)
picture is accounted for as delivered, recycled/dropped, or still pending. -/
def throttleCounterInv (th : Throttle) : Prop :=
  th.delivered.length + th.recycled.length + th.pendingPictures.length =
    th.numDecodedFrames

/-- Explicit description of a matching-epoch delivery tick on a non-empty
queue. -/
theorem callClientPictureReady_cons (th : Throttle) (now : Int) (pic : Picture)
    (rest : List Picture) (hp : th.pendingPictures = pic :: rest) :
    callClientPictureReady th th.streamVersion now =
      some { th with
        pendingPictures := rest
        nextFrameDeliveredTime :=
          some (th.nextFrameDeliveredTime.getD now + th.frameDuration)
        recycled :=
          if th.nextFrameDeliveredTime.getD now + th.frameDuration < now then
            th.recycled ++ [pic.pictureBufferId]
          else th.recycled
        delivered :=
          if th.nextFrameDeliveredTime.getD now + th.frameDuration < now then
            th.delivered
          else th.delivered ++ [pic]
        scheduled :=
          if rest.isEmpty then th.scheduled
          else th.scheduled ++ [th.streamVersion] } := by
  unfold callClientPictureReady
  rw [if_neg (by simp), hp]
  by_cases hlate : th.nextFrameDeliveredTime.getD now + th.frameDuration < now <;>
    cases hre : rest.isEmpty <;> simp [hlate, hre]

/-- **C2**: a delivery tick whose epoch differs from the current epoch is
discarded without delivering anything; completing a reset increments the
epoch exactly once and recycles (does not deliver) every queued picture;
every scheduled delivery tick carries the epoch active when it was
scheduled; and a backlog of stale-epoch ticks delivers nothing. -/
theorem C2_epoch_monotonicity (th : Throttle) (version : Nat) (now : Int)
    (pic : Picture) :
    (version ≠ th.streamVersion →
      callClientPictureReady th version now = some th) ∧
    ((throttleNotifyResetDone th).streamVersion = th.streamVersion + 1 ∧
      (throttleNotifyResetDone th).delivered = th.delivered ∧
      (throttleNotifyResetDone th).recycled =
        th.recycled ++ th.pendingPictures.map Picture.pictureBufferId ∧
      (throttleNotifyResetDone th).pendingPictures = []) ∧
    ((throttlePictureReady th pic).scheduled = th.scheduled ++
      (if th.pendingPictures.isEmpty then [th.streamVersion] else [])) ∧
    (∀ th2, callClientPictureReady th version now = some th2 →
      th2.scheduled = th.scheduled ∨
      th2.scheduled = th.scheduled ++ [th.streamVersion]) ∧
    (∀ ticks : List (Nat × Int), (∀ vn ∈ ticks, vn.1 ≠ th.streamVersion) →
      runTicks th ticks = some th) := by
  refine ⟨?_, ⟨rfl, rfl, rfl, rfl⟩, ?_, ?_, ?_⟩
  · intro h
    unfold callClientPictureReady
    rw [if_pos h]
  · unfold throttlePictureReady
    split
    next h => simp [h]
    next h => simp [h]
  · intro th2 h
    by_cases hv : version = th.streamVersion
    · subst hv
      match hp : th.pendingPictures with
      | [] =>
        unfold callClientPictureReady at h
        rw [if_neg (by simp), hp] at h
        simp at h
      | p :: rest2 =>
        rw [callClientPictureReady_cons th now p rest2 hp] at h
        simp only [Option.some.injEq] at h
        subst h
        cases hre : rest2.isEmpty <;> simp [hre]
    · unfold callClientPictureReady at h
      rw [if_pos hv] at h
      simp only [Option.some.injEq] at h
      subst h
      exact Or.inl rfl
  · intro ticks hall
    induction ticks with
    | nil => rfl
    | cons vn rest ih =>
      obtain ⟨v, tnow⟩ := vn
      have hv : v ≠ th.streamVersion := hall (v, tnow) (List.mem_cons_self _ _)
      unfold runTicks
      rw [show callClientPictureReady th v tnow = some th from by
        unfold callClientPictureReady; rw [if_pos hv]]
      exact ih fun x hx => hall x (List.mem_cons_of_mem _ hx)

/-- Concrete throttle state for the C2 witness: epoch 0, one queued picture. -/
def thExC2 : Throttle :=
  { nextFrameDeliveredTime := none, frameDuration := 10, numDecodedFrames := 1,
    streamVersion := 0, pendingPictures := [⟨3, 0⟩], delivered := [],
    recycled := [], scheduled := [0] }

theorem C2_epoch_monotonicity_witness :
    callClientPictureReady thExC2 1 50 = some thExC2 ∧
    (throttleNotifyResetDone thExC2).streamVersion = thExC2.streamVersion + 1 ∧
    (throttleNotifyResetDone thExC2).delivered = thExC2.delivered ∧
    (throttleNotifyResetDone thExC2).recycled =
      thExC2.recycled ++ thExC2.pendingPictures.map Picture.pictureBufferId ∧
    (throttleNotifyResetDone thExC2).pendingPictures = [] ∧
    runTicks thExC2 [(1, 50), (2, 60)] = some thExC2 := by
  have h := C2_epoch_monotonicity thExC2 1 50 ⟨4, 0⟩
  exact ⟨h.1 (by decide), h.2.1.1, h.2.1.2.1, h.2.1.2.2.1, h.2.1.2.2.2,
    h.2.2.2.2 [(1, 50), (2, 60)] (by decide)⟩

/-- **C3**: on a delivery tick whose epoch matches the current epoch, with
`t0` the pending delivery time (`nextDeliveryTime`, or `now` when unset): if
`t0 + Δ < now` the head picture is recycled back to the decoder instead of
delivered, otherwise it is delivered to the consumer; in both cases the head
is removed, the next delivery time becomes `t0 + Δ`, and a next tick is
scheduled iff the queue is non-empty.  Every arrived picture is accounted
for exactly once: delivered + recycled + pending = decoded, hence
renderedCount + droppedCount = decodedCount once the queue is empty. -/
theorem C3_throttle_tick_semantics (th : Throttle) (now : Int) (pic : Picture)
    (rest : List Picture) :
    (th.pendingPictures = pic :: rest →
      ∃ th2, callClientPictureReady th th.streamVersion now = some th2 ∧
        (th.nextFrameDeliveredTime.getD now + th.frameDuration < now →
          th2.recycled = th.recycled ++ [pic.pictureBufferId] ∧
          th2.delivered = th.delivered) ∧
        (¬ th.nextFrameDeliveredTime.getD now + th.frameDuration < now →
          th2.delivered = th.delivered ++ [pic] ∧
          th2.recycled = th.recycled) ∧
        th2.pendingPictures = rest ∧
        th2.nextFrameDeliveredTime =
          some (th.nextFrameDeliveredTime.getD now + th.frameDuration) ∧
        th2.scheduled = th.scheduled ++
          (if rest.isEmpty then [] else [th.streamVersion])) ∧
    (throttleCounterInv th →
      throttleCounterInv (throttlePictureReady th pic)) ∧
    (∀ v th2, throttleCounterInv th →
      callClientPictureReady th v now = some th2 → throttleCounterInv th2) ∧
    (throttleCounterInv th → throttleCounterInv (throttleNotifyResetDone th)) ∧
    (throttleCounterInv th → th.pendingPictures = [] →
      th.delivered.length + th.recycled.length = th.numDecodedFrames) := by
  refine ⟨?_, ?_, ?_, ?_, ?_⟩
  · intro hp
    rw [callClientPictureReady_cons th now pic rest hp]
    refine ⟨_, rfl, ?_, ?_, rfl, rfl, ?_⟩
    · intro hlate
      constructor <;> simp [hlate]
    · intro hlate
      constructor <;> simp [hlate]
    · cases hre : rest.isEmpty <;> simp [hre]
  · intro hinv
    unfold throttleCounterInv at *
    cases hre : th.pendingPictures.isEmpty <;>
      simp [throttlePictureReady, hre] <;> omega
  · intro v th2 hinv h
    by_cases hv : v = th.streamVersion
    · subst hv
      match hp : th.pendingPictures with
      | [] =>
        unfold callClientPictureReady at h
        rw [if_neg (by simp), hp] at h
        simp at h
      | p :: rest2 =>
        rw [callClientPictureReady_cons th now p rest2 hp] at h
        simp only [Option.some.injEq] at h
        subst h
        unfold throttleCounterInv at *
        rw [hp] at hinv
        simp only [List.length_cons] at hinv
        by_cases hlate :
            th.nextFrameDeliveredTime.getD now + th.frameDuration < now <;>
          simp [hlate] <;> omega
    · unfold callClientPictureReady at h
      rw [if_pos hv] at h
      simp only [Option.some.injEq] at h
      rw [← h]
      exact hinv
  · intro hinv
    unfold throttleCounterInv throttleNotifyResetDone at *
    simp
    omega
  · intro hinv hp
    unfold throttleCounterInv at hinv
    rw [hp] at hinv
    simpa using hinv

/-- Concrete throttle state for the C3 witness: epoch 0, two queued
pictures, next delivery at t=20, Δ=10, tick firing at t=50 (late, so the
head must be dropped). -/
def thExC3 : Throttle :=
  { nextFrameDeliveredTime := some 20, frameDuration := 10,
    numDecodedFrames := 2, streamVersion := 0,
    pendingPictures := [⟨5, 0⟩, ⟨6, 1⟩], delivered := [], recycled := [],
    scheduled := [0] }

theorem C3_throttle_tick_semantics_witness :
    (∃ th2, callClientPictureReady thExC3 thExC3.streamVersion 50 = some th2 ∧
      (thExC3.nextFrameDeliveredTime.getD 50 + thExC3.frameDuration < 50 →
        th2.recycled = thExC3.recycled ++ [(5 : Nat)] ∧
        th2.delivered = thExC3.delivered) ∧
      (¬ thExC3.nextFrameDeliveredTime.getD 50 + thExC3.frameDuration < 50 →
        th2.delivered = thExC3.delivered ++ [⟨5, 0⟩] ∧
        th2.recycled = thExC3.recycled) ∧
      th2.pendingPictures = [⟨6, 1⟩] ∧
      th2.nextFrameDeliveredTime =
        some (thExC3.nextFrameDeliveredTime.getD 50 + thExC3.frameDuration) ∧
      th2.scheduled = thExC3.scheduled ++
        (if ([(⟨6, 1⟩ : Picture)]).isEmpty then [] else [thExC3.streamVersion])) ∧
    throttleCounterInv (throttlePictureReady thExC3 ⟨7, 1⟩) ∧
    throttleCounterInv (throttleNotifyResetDone thExC3) := by
  have h := C3_throttle_tick_semantics thExC3 50 ⟨5, 0⟩ [⟨6, 1⟩]
  have hinv : throttleCounterInv thExC3 := by
    unfold throttleCounterInv thExC3
    simp
  refine ⟨h.1 rfl, ?_, h.2.2.2.1 hinv⟩
  exact (C3_throttle_tick_semantics thExC3 50 ⟨7, 1⟩ []).2.1 hinv

/-! ## Client lemmas -/

/-- The `ClientState` arguments of the `note_->Notify(...)` calls in an
effect log, in order. -/
def stateNotifications (l : List Eff) : List Nat :=
  l.filterMap fun e =>
    match e with
    | Eff.notify s => some s
    | _ => none

theorem stateNotifications_append (l1 l2 : List Eff) :
    stateNotifications (l1 ++ l2) =
      stateNotifications l1 ++ stateNotifications l2 :=
  List.filterMap_append l1 l2 _

theorem stateNotifications_map_notify (xs : List Nat) :
    stateNotifications (xs.map Eff.notify) = xs := by
  induction xs with
  | nil => rfl
  | cons x xs ih =>
    simp only [List.map_cons, stateNotifications, List.filterMap_cons]
    exact congrArg (x :: ·) ih

theorem stateNotifications_map_deleteTexture (xs : List Nat) :
    stateNotifications (xs.map Eff.deleteTexture) = [] := by
  induction xs with
  | nil => rfl
  | cons x xs ih =>
    simp only [List.map_cons, stateNotifications, List.filterMap_cons]
    exact ih

theorem count_flush_map_notify (xs : List Nat) :
    (xs.map Eff.notify).count Eff.flush = 0 := by
  rw [List.count_eq_zero]
  intro hmem
  obtain ⟨a, _, ha⟩ := List.mem_map.mp hmem
  exact Eff.noConfusion ha

theorem count_flush_map_deleteTexture (xs : List Nat) :
    (xs.map Eff.deleteTexture).count Eff.flush = 0 := by
  rw [List.count_eq_zero]
  intro hmem
  obtain ⟨a, _, ha⟩ := List.mem_map.mp hmem
  exact Eff.noConfusion ha

/-- Full description of the cascading loop: it leaves every field except
`effs` and `state` unchanged, notifies exactly the states `i, …, CS_MAX-1`
in order, and leaves `state_` at `CS_DESTROYED` (when it runs at all). -/
theorem cascadeFrom_spec (c : Client) (i : Nat) (c2 : Client)
    (h : cascadeFrom c i = some c2) :
    c2 = { c with
      effs := c.effs ++ (List.range' i (CS_MAX - i)).map Eff.notify
      state := if i < CS_MAX then CS_MAX - 1 else c.state } := by
  rw [cascadeFrom] at h
  split at h
  next hi =>
    split at h
    next => exact absurd h (by simp)
    next htrig =>
      have ih := cascadeFrom_spec _ (i + 1) c2 h
      have hrange : CS_MAX - i = (CS_MAX - (i + 1)) + 1 := by
        simp only [CS_MAX] at hi ⊢
        omega
      rw [ih, hrange, List.range'_succ]
      simp only [Client.mk.injEq, List.map_cons, List.append_assoc,
        List.singleton_append, and_true, true_and]
      rw [if_pos hi]
      split
      next => rfl
      next hni =>
        simp only [CS_MAX] at hi hni ⊢
        omega
  next hi =>
    simp only [Option.some.injEq] at h
    rw [← h]
    have h0 : CS_MAX - i = 0 := by
      simp only [CS_MAX] at hi ⊢
      omega
    rw [h0, if_neg hi]
    simp
termination_by CS_MAX - i
decreasing_by simp only [CS_MAX] at *; omega

/-- `DeleteDecoder` leaves the submission bookkeeping untouched, always ends
with the decoder gone, emits no `Flush`, and only appends to the call log. -/
theorem deleteDecoder_pres (c c2 : Client) (h : deleteDecoder c = some c2) :
    c2.outstandingDecodes = c.outstandingDecodes ∧
    c2.numInFlightDecodes = c.numInFlightDecodes ∧
    c2.numDoneBitstreamBuffers = c.numDoneBitstreamBuffers ∧
    c2.nextPosToDecode = c.nextPosToDecode ∧
    c2.nextBitstreamBufferId = c.nextBitstreamBufferId ∧
    c2.resetAfterFrameNum = c.resetAfterFrameNum ∧
    c2.numSkippedFragments = c.numSkippedFragments ∧
    c2.numQueuedFragments = c.numQueuedFragments ∧
    c2.numDecodedFrames = c.numDecodedFrames ∧
    c2.remainingPlayThroughs = c.remainingPlayThroughs ∧
    c2.deleteDecoderState = c.deleteDecoderState ∧
    c2.decoderDeleted = true ∧
    c2.pictureBuffersById = c.pictureBuffersById ∧
    c2.effs.count Eff.flush = c.effs.count Eff.flush ∧
    (∀ e, e ∈ c.effs → e ∈ c2.effs) := by
  unfold deleteDecoder at h
  split at h
  next hdel =>
    simp only [Option.some.injEq] at h
    rw [← h]
    exact ⟨rfl, rfl, rfl, rfl, rfl, rfl, rfl, rfl, rfl, rfl, rfl, hdel, rfl,
      rfl, fun e he => he⟩
  next hdel =>
    rw [cascadeFrom_spec _ _ _ h]
    refine ⟨rfl, rfl, rfl, rfl, rfl, rfl, rfl, rfl, rfl, rfl, rfl, rfl, rfl,
      ?_, ?_⟩
    · simp only [List.count_append]
      rw [List.count_eq_zero.mpr (by simp : Eff.flush ∉ [Eff.destroy]),
        List.count_eq_zero.mpr
          (by simp : Eff.flush ∉ c.outstandingTextureIds.map Eff.deleteTexture),
        List.count_eq_zero.mpr (by simp :
          Eff.flush ∉
            (List.range' (c.state + 1) (CS_MAX - (c.state + 1))).map Eff.notify)]
      omega
    · intro e he
      simp only [List.mem_append]
      exact Or.inl (Or.inl (Or.inl he))

/-- `SetState` leaves the submission bookkeeping untouched, emits the
notification and no `Flush`, and — when the delete-decoder trigger does not
fire — just records the new state. -/
theorem setState_pres (c c2 : Client) (ns : Nat) (h : setState c ns = some c2) :
    c2.outstandingDecodes = c.outstandingDecodes ∧
    c2.numInFlightDecodes = c.numInFlightDecodes ∧
    c2.numDoneBitstreamBuffers = c.numDoneBitstreamBuffers ∧
    c2.nextPosToDecode = c.nextPosToDecode ∧
    c2.nextBitstreamBufferId = c.nextBitstreamBufferId ∧
    c2.resetAfterFrameNum = c.resetAfterFrameNum ∧
    c2.numSkippedFragments = c.numSkippedFragments ∧
    c2.numQueuedFragments = c.numQueuedFragments ∧
    c2.numDecodedFrames = c.numDecodedFrames ∧
    c2.remainingPlayThroughs = c.remainingPlayThroughs ∧
    c2.deleteDecoderState = c.deleteDecoderState ∧
    c2.pictureBuffersById = c.pictureBuffersById ∧
    c2.effs.count Eff.flush = c.effs.count Eff.flush ∧
    Eff.notify ns ∈ c2.effs ∧
    (¬(c.remainingPlayThroughs = 0 ∧ (ns : Int) = c.deleteDecoderState) →
      c2 = { c with effs := c.effs ++ [Eff.notify ns], state := ns }) := by
  unfold setState at h
  split at h
  next htrig =>
    split at h
    next => exact absurd h (by simp)
    next hdel =>
      obtain ⟨h1, h2, h3, h4, h5, h6, h7, h8, h9, h10, h11, _, h13, h14, h15⟩ :=
        deleteDecoder_pres _ _ h
      simp only at h1 h2 h3 h4 h5 h6 h7 h8 h9 h10 h11 h13 h14
      refine ⟨h1, h2, h3, h4, h5, h6, h7, h8, h9, h10, h11, h13, ?_, ?_, ?_⟩
      · rw [h14, List.count_append,
          List.count_eq_zero.mpr (by simp : Eff.flush ∉ [Eff.notify ns])]
        omega
      · exact h15 (Eff.notify ns) (by simp)
      · intro hc
        simp only [beq_iff_eq] at htrig
        exact absurd htrig hc
  next htrig =>
    simp only [Option.some.injEq] at h
    rw [← h]
    refine ⟨rfl, rfl, rfl, rfl, rfl, rfl, rfl, rfl, rfl, rfl, rfl, rfl, ?_,
      by simp, fun _ => rfl⟩
    simp only [List.count_append]
    rw [List.count_eq_zero.mpr (by simp : Eff.flush ∉ [Eff.notify ns])]
    omega

/-- Full accounting of one `DecodeNextFragment` call: in-flight bookkeeping,
the exact condition under which `Flush` is issued, the `CS_FLUSHING`
transition, and the submission made when the cursor is mid-stream. -/
theorem decodeNextFragment_spec (c c2 : Client)
    (h : decodeNextFragment c = some c2) :
    c2.numInFlightDecodes = c.numInFlightDecodes ∧
    c2.outstandingDecodes ≤ c.outstandingDecodes + 1 ∧
    (c.decoderDeleted = false → c.nextPosToDecode ≠ c.encodedData.length →
      c2.outstandingDecodes = c.outstandingDecodes + 1) ∧
    ((c.decoderDeleted = true ∨ c.nextPosToDecode = c.encodedData.length) →
      c2.outstandingDecodes = c.outstandingDecodes) ∧
    c2.effs.count Eff.flush = c.effs.count Eff.flush +
      (if c.decoderDeleted = false ∧ c.nextPosToDecode = c.encodedData.length ∧
          c.outstandingDecodes = 0 then 1 else 0) ∧
    (c.decoderDeleted = false → c.nextPosToDecode = c.encodedData.length →
      c.outstandingDecodes = 0 →
      Eff.notify CS_FLUSHING ∈ c2.effs ∧
      (¬(c.remainingPlayThroughs = 0 ∧
          (CS_FLUSHING : Int) = c.deleteDecoderState) →
        c2.state = CS_FLUSHING)) ∧
    (∀ r, c.decoderDeleted = false → c.nextPosToDecode ≠ c.encodedData.length →
      (if c.nextPosToDecode == 0 then
        getBytesForFirstFragment c.profile c.encodedData 0
      else
        getBytesForNextFragment c.profile c.encodedData c.nextPosToDecode) =
          some r →
      Eff.decode c.nextBitstreamBufferId r.bytes ∈ c2.effs ∧
      c2.nextPosToDecode = r.endPos ∧
      c2.resetAfterFrameNum = c.resetAfterFrameNum ∧
      c2.numSkippedFragments = c.numSkippedFragments + r.skipped ∧
      c2.numQueuedFragments = c.numQueuedFragments + r.queued) ∧
    c2.numDoneBitstreamBuffers = c.numDoneBitstreamBuffers := by
  unfold decodeNextFragment at h
  split at h
  next hdel =>
    simp only [Option.some.injEq] at h
    rw [← h]
    refine ⟨rfl, by omega, fun hf _ => absurd hdel (by simp [hf]),
      fun _ => rfl, ?_, fun hf _ _ => absurd hdel (by simp [hf]),
      fun r hf _ _ => absurd hdel (by simp [hf]), rfl⟩
    rw [if_neg (by simp [hdel])]
    omega
  next hdel =>
    simp only [Bool.not_eq_true] at hdel
    split at h
    next hpos =>
      simp only [beq_iff_eq] at hpos
      split at h
      next hout =>
        simp only [beq_iff_eq] at hout
        obtain ⟨p1, p2, p3, p4, p5, p6, p7, p8, p9, p10, p11, p12, p13, p14,
          p15⟩ := setState_pres _ _ _ h
        simp only at p1 p2 p3 p4 p5 p6 p7 p8 p9 p10 p11 p12 p13 p14 p15
        refine ⟨p2, by omega, fun _ hne => absurd hpos hne, fun _ => by omega,
          ?_, fun _ _ _ => ⟨p14, fun htrig => ?_⟩, fun r _ hne => absurd hpos hne,
          p3⟩
        · rw [p13, List.count_append, if_pos ⟨hdel, hpos, hout⟩]
          simp
        · rw [p15 htrig]
      next hout =>
        simp only [beq_iff_eq] at hout
        simp only [Option.some.injEq] at h
        rw [← h]
        refine ⟨rfl, by omega, fun _ hne => absurd hpos hne, fun _ => rfl, ?_,
          fun _ _ hz => absurd hz hout, fun r _ hne => absurd hpos hne, rfl⟩
        rw [if_neg (by tauto)]
        omega
    next hpos =>
      simp only [beq_iff_eq] at hpos
      split at h
      next => exact absurd h (by simp)
      next r hfetch =>
        have hcount :
            (c.effs ++ [Eff.decode c.nextBitstreamBufferId r.bytes]).count
              Eff.flush = c.effs.count Eff.flush := by
          rw [List.count_append,
            List.count_eq_zero.mpr
              (by simp : Eff.flush ∉ [Eff.decode c.nextBitstreamBufferId r.bytes])]
          omega
        have hmemd : Eff.decode c.nextBitstreamBufferId r.bytes ∈
            c.effs ++ [Eff.decode c.nextBitstreamBufferId r.bytes] := by simp
        split at h
        next htrig =>
          obtain ⟨p1, p2, p3, p4, p5, p6, p7, p8, p9, p10, p11, p12, p13, p14,
            p15⟩ := deleteDecoder_pres _ _ h
          simp only at p1 p2 p3 p4 p5 p6 p7 p8 p9 p10 p11 p12 p13 p14 p15
          refine ⟨p2, by omega, fun _ _ => by omega,
            fun hcase => ?_, ?_, fun _ hpe _ => absurd hpe hpos,
            fun r2 _ _ hfetch2 => ?_, p3⟩
          · rcases hcase with hc | hc
            · exact absurd hc (by simp [hdel])
            · exact absurd hc hpos
          · rw [p14, hcount, if_neg (by tauto)]
            omega
          · rw [hfetch] at hfetch2
            simp only [Option.some.injEq] at hfetch2
            subst hfetch2
            exact ⟨p15 _ hmemd, by rw [p4], p6, p7, p8⟩
        next htrig =>
          simp only [Option.some.injEq] at h
          rw [← h]
          refine ⟨rfl, le_refl _, fun _ _ => rfl, fun hcase => ?_, ?_,
            fun _ hpe _ => absurd hpe hpos, fun r2 _ _ hfetch2 => ?_, rfl⟩
          · rcases hcase with hc | hc
            · exact absurd hc (by simp [hdel])
            · exact absurd hc hpos
          · rw [show ({ c with
                numSkippedFragments := c.numSkippedFragments + r.skipped
                numQueuedFragments := c.numQueuedFragments + r.queued
                effs := c.effs ++ [Eff.decode c.nextBitstreamBufferId r.bytes]
                nextBitstreamBufferId := (c.nextBitstreamBufferId + 1) % (2 ^ 30)
                outstandingDecodes := c.outstandingDecodes + 1
                nextPosToDecode := r.endPos } : Client).effs =
              c.effs ++ [Eff.decode c.nextBitstreamBufferId r.bytes] from rfl,
              hcount, if_neg (by tauto)]
            omega
          · rw [hfetch] at hfetch2
            simp only [Option.some.injEq] at hfetch2
            subst hfetch2
            exact ⟨hmemd, rfl, rfl, rfl, rfl⟩

theorem decodeLoop_bound (n : Nat) : ∀ c c2 : Client,
    decodeLoop c n = some c2 →
    c2.outstandingDecodes ≤ c.outstandingDecodes + n ∧
    c2.numInFlightDecodes = c.numInFlightDecodes := by
  induction n with
  | zero =>
    intro c c2 h
    simp only [decodeLoop, Option.some.injEq] at h
    rw [← h]
    exact ⟨by omega, rfl⟩
  | succ n ih =>
    intro c c2 h
    unfold decodeLoop at h
    split at h
    next => exact absurd h (by simp)
    next c1 heq =>
      obtain ⟨q1, q2, _⟩ := decodeNextFragment_spec c c1 heq
      obtain ⟨b1, b2⟩ := ih c1 c2 h
      exact ⟨by omega, by rw [b2, q1]⟩

/-- A run of `NotifyEndOfBitstreamBuffer` events (the "buffer consumed"
callbacks), processed in order. -/
def runConsumed (c : Client) : Nat → Option Client
  | 0 => some c
  | n + 1 =>
    match notifyEndOfBitstreamBuffer c with
    | none => none
    | some c2 => runConsumed c2 n

/-- One consumed callback: the done counter advances by exactly one, the
outstanding count never grows (decrement + at most one refill), the refill
restores the exact outstanding count mid-stream, and `Flush` is emitted
exactly when the cursor is at end-of-stream with no remaining outstanding
submission. -/
theorem notifyEndOfBitstreamBuffer_spec (c c2 : Client)
    (h : notifyEndOfBitstreamBuffer c = some c2) :
    c2.numInFlightDecodes = c.numInFlightDecodes ∧
    c2.outstandingDecodes ≤ c.outstandingDecodes ∧
    c2.numDoneBitstreamBuffers = c.numDoneBitstreamBuffers + 1 ∧
    (c.decoderDeleted = false → c.nextPosToDecode ≠ c.encodedData.length →
      c2.outstandingDecodes = c.outstandingDecodes) ∧
    ((c.decoderDeleted = true ∨ c.nextPosToDecode = c.encodedData.length) →
      c2.outstandingDecodes = c.outstandingDecodes - 1) ∧
    c2.effs.count Eff.flush = c.effs.count Eff.flush +
      (if c.decoderDeleted = false ∧ c.nextPosToDecode = c.encodedData.length ∧
          c.outstandingDecodes - 1 = 0 then 1 else 0) := by
  unfold notifyEndOfBitstreamBuffer at h
  obtain ⟨q1, q2, q3, q4, q5, q6, q7, q8⟩ := decodeNextFragment_spec _ c2 h
  simp only at q1 q2 q3 q4 q5 q6 q7 q8
  exact ⟨q1, by have := q2; omega, q8, fun hd hp => by rw [q3 hd hp]; omega,
    fun hcase => q4 hcase, q5⟩

theorem runConsumed_inv (n : Nat) : ∀ c c2 : Client,
    c.outstandingDecodes ≤ c.numInFlightDecodes →
    runConsumed c n = some c2 →
    c2.outstandingDecodes ≤ c2.numInFlightDecodes ∧
    c2.numInFlightDecodes = c.numInFlightDecodes := by
  induction n with
  | zero =>
    intro c c2 hinv h
    simp only [runConsumed, Option.some.injEq] at h
    rw [← h]
    exact ⟨hinv, rfl⟩
  | succ n ih =>
    intro c c2 hinv h
    unfold runConsumed at h
    split at h
    next => exact absurd h (by simp)
    next c1 heq =>
      obtain ⟨q1, q2, _⟩ := notifyEndOfBitstreamBuffer_spec c c1 heq
      obtain ⟨b1, b2⟩ := ih c1 c2 (by omega) h
      exact ⟨b1, by rw [b2, q1]⟩

theorem notifyInitializeDone_bound (c c2 : Client)
    (hout : c.outstandingDecodes = 0) (hmax : 0 ≤ c.numInFlightDecodes)
    (h : notifyInitializeDone c = some c2) :
    c2.outstandingDecodes ≤ c.numInFlightDecodes ∧
    c2.numInFlightDecodes = c.numInFlightDecodes := by
  unfold notifyInitializeDone at h
  split at h
  next => exact absurd h (by simp)
  next c1 hset =>
    obtain ⟨p1, p2, _⟩ := setState_pres _ _ _ hset
    split at h
    next =>
      split at h
      next => exact absurd h (by simp)
      next =>
        simp only [Option.some.injEq] at h
        rw [← h]
        refine ⟨?_, ?_⟩
        · show c1.outstandingDecodes ≤ c.numInFlightDecodes
          omega
        · show c1.numInFlightDecodes = c.numInFlightDecodes
          exact p2
    next =>
      obtain ⟨b1, b2⟩ := decodeLoop_bound _ _ _ h
      rw [p1, hout] at b1
      rw [b2, p2] at *
      refine ⟨?_, rfl⟩
      have : ((c.numInFlightDecodes.toNat : Nat) : Int) = c.numInFlightDecodes :=
        Int.toNat_of_nonneg hmax
      omega

/-! ## Claims C1, C4: the credit-based submission loop -/

/-- **C1**: during a run driven by "buffer consumed" callbacks the number of
outstanding submissions never exceeds `num_in_flight_decodes_`; each consumed
callback advances the done-counter by exactly one (the decrement) and
immediately refills by submitting the next fragment, so that mid-stream
(decoder live, cursor not at end-of-stream) the outstanding count is restored
exactly, and near end-of-stream it only drops by one; the initial submission
burst of `NotifyInitializeDone` from an idle driver also respects the bound. -/
theorem C1_credit_flow (c : Client) :
    (∀ n c2, c.outstandingDecodes ≤ c.numInFlightDecodes →
      runConsumed c n = some c2 →
      c2.outstandingDecodes ≤ c2.numInFlightDecodes ∧
      c2.numInFlightDecodes = c.numInFlightDecodes) ∧
    (∀ c2, notifyEndOfBitstreamBuffer c = some c2 →
      c2.numDoneBitstreamBuffers = c.numDoneBitstreamBuffers + 1 ∧
      c2.outstandingDecodes ≤ c.outstandingDecodes ∧
      (c.decoderDeleted = false → c.nextPosToDecode ≠ c.encodedData.length →
        c2.outstandingDecodes = c.outstandingDecodes) ∧
      ((c.decoderDeleted = true ∨ c.nextPosToDecode = c.encodedData.length) →
        c2.outstandingDecodes = c.outstandingDecodes - 1)) ∧
    (∀ c2, c.outstandingDecodes = 0 → 0 ≤ c.numInFlightDecodes →
      notifyInitializeDone c = some c2 →
      c2.outstandingDecodes ≤ c.numInFlightDecodes) := by
  refine ⟨fun n c2 hinv h => runConsumed_inv n c c2 hinv h, ?_, ?_⟩
  · intro c2 h
    obtain ⟨_, q2, q3, q4, q5, _⟩ := notifyEndOfBitstreamBuffer_spec c c2 h
    exact ⟨q3, q2, q4, q5⟩
  · intro c2 hout hmax h
    exact (notifyInitializeDone_bound c c2 hout hmax h).1

/-- Concrete client for the C1 witness: VP8 stream `dExC8W`, one in-flight
credit, one outstanding submission, cursor at the start of the stream. -/
def cExC1 : Client :=
  { encodedData := dExC8W, numInFlightDecodes := 1, outstandingDecodes := 1,
    nextPosToDecode := 0, nextBitstreamBufferId := 0, decoderDeleted := false,
    outstandingTextureIds := [], remainingPlayThroughs := 1,
    resetAfterFrameNum := -1, deleteDecoderState := 6, state := 2,
    numSkippedFragments := 0, numQueuedFragments := 0, numDecodedFrames := 0,
    numDoneBitstreamBuffers := 0, pictureBuffersById := [], profile := 12,
    suppressRendering := true, delayReuseAfterFrameNum := 100, effs := [] }

/-- The state of `cExC1` after one consumed callback: credit returned and
immediately spent on the next fragment (cursor advanced to 46). -/
def cExC1post : Client :=
  { cExC1 with
    nextPosToDecode := 46
    nextBitstreamBufferId := 1
    numQueuedFragments := 1
    numDoneBitstreamBuffers := 1
    effs := [Eff.decode 0 [171, 205]] }

theorem C1_credit_flow_witness :
    cExC1.outstandingDecodes ≤ cExC1.numInFlightDecodes ∧
    runConsumed cExC1 1 = some cExC1post ∧
    cExC1post.outstandingDecodes ≤ cExC1post.numInFlightDecodes ∧
    cExC1post.numInFlightDecodes = cExC1.numInFlightDecodes ∧
    cExC1post.numDoneBitstreamBuffers = cExC1.numDoneBitstreamBuffers + 1 ∧
    cExC1post.outstandingDecodes = cExC1.outstandingDecodes :=
  ⟨by decide, by decide,
    ((C1_credit_flow cExC1).1 1 cExC1post (by decide) (by decide)).1,
    ((C1_credit_flow cExC1).1 1 cExC1post (by decide) (by decide)).2,
    (((C1_credit_flow cExC1).2.1 cExC1post (by decide)).1),
    (((C1_credit_flow cExC1).2.1 cExC1post (by decide)).2.2.1 (by decide)
      (by decide))⟩

/-- **C4**: `Flush` is issued by `DecodeNextFragment` exactly when the stream
cursor is at end-of-stream and the outstanding count is zero (with a live
decoder), and the driver then transitions to `CS_FLUSHING`; a consumed
callback triggers `Flush` exactly when the cursor is at end-of-stream and the
decremented outstanding count is zero, and never otherwise. -/
theorem C4_flush_exactly_at_eos (c : Client) :
    (∀ c2, decodeNextFragment c = some c2 →
      c2.effs.count Eff.flush = c.effs.count Eff.flush +
        (if c.decoderDeleted = false ∧ c.nextPosToDecode = c.encodedData.length ∧
            c.outstandingDecodes = 0 then 1 else 0) ∧
      (c.decoderDeleted = false → c.nextPosToDecode = c.encodedData.length →
        c.outstandingDecodes = 0 →
        Eff.notify CS_FLUSHING ∈ c2.effs ∧
        (¬(c.remainingPlayThroughs = 0 ∧
            (CS_FLUSHING : Int) = c.deleteDecoderState) →
          c2.state = CS_FLUSHING))) ∧
    (∀ c2, notifyEndOfBitstreamBuffer c = some c2 →
      c2.effs.count Eff.flush = c.effs.count Eff.flush +
        (if c.decoderDeleted = false ∧ c.nextPosToDecode = c.encodedData.length ∧
            c.outstandingDecodes - 1 = 0 then 1 else 0)) := by
  refine ⟨fun c2 h => ?_, fun c2 h => ?_⟩
  · obtain ⟨_, _, _, _, q5, q6, _, _⟩ := decodeNextFragment_spec c c2 h
    exact ⟨q5, q6⟩
  · exact (notifyEndOfBitstreamBuffer_spec c c2 h).2.2.2.2.2

/-- Concrete client for the C4 witness: cursor at end-of-stream, zero
outstanding submissions, live decoder. -/
def cExC4 : Client :=
  { encodedData := [7, 7], numInFlightDecodes := 1, outstandingDecodes := 0,
    nextPosToDecode := 2, nextBitstreamBufferId := 3, decoderDeleted := false,
    outstandingTextureIds := [], remainingPlayThroughs := 1,
    resetAfterFrameNum := -1, deleteDecoderState := 6, state := 2,
    numSkippedFragments := 0, numQueuedFragments := 1, numDecodedFrames := 2,
    numDoneBitstreamBuffers := 2, pictureBuffersById := [], profile := 12,
    suppressRendering := true, delayReuseAfterFrameNum := 100, effs := [] }

/-- `cExC4` after `DecodeNextFragment`: `Flush` issued, state `CS_FLUSHING`. -/
def cExC4post : Client :=
  { cExC4 with state := 3, effs := [Eff.flush, Eff.notify 3] }

theorem C4_flush_exactly_at_eos_witness :
    decodeNextFragment cExC4 = some cExC4post ∧
    cExC4post.effs.count Eff.flush = cExC4.effs.count Eff.flush +
      (if cExC4.decoderDeleted = false ∧
          cExC4.nextPosToDecode = cExC4.encodedData.length ∧
          cExC4.outstandingDecodes = 0 then 1 else 0) ∧
    Eff.notify CS_FLUSHING ∈ cExC4post.effs ∧
    cExC4post.state = CS_FLUSHING :=
  ⟨by decide,
    ((C4_flush_exactly_at_eos cExC4).1 cExC4post (by decide)).1,
    (((C4_flush_exactly_at_eos cExC4).1 cExC4post (by decide)).2 (by decide)
      (by decide) (by decide)).1,
    (((C4_flush_exactly_at_eos cExC4).1 cExC4post (by decide)).2 (by decide)
      (by decide) (by decide)).2 (by decide)⟩

/-! ## Claim C6: destruction -/

/-- **C6**: destroying is idempotent — a second `DeleteDecoder` on an
already-destroyed driver returns it unchanged with no additional side
effects — and a forced destruction of a live driver synthetically advances
the observable state through every intermediate state (`state_+1, …,
CS_DESTROYED`, notified in increasing order) and ends in `CS_DESTROYED`. -/
theorem C6_destroy_idempotent_cascade (c : Client) :
    (∀ c1, deleteDecoder c = some c1 → deleteDecoder c1 = some c1) ∧
    (∀ c1, c.decoderDeleted = false → c.state < CS_MAX →
      deleteDecoder c = some c1 →
      c1.state = CS_DESTROYED ∧ c1.decoderDeleted = true ∧
      stateNotifications c1.effs = stateNotifications c.effs ++
        List.range' (c.state + 1) (CS_DESTROYED - c.state)) := by
  refine ⟨?_, ?_⟩
  · intro c1 h
    have hdel := (deleteDecoder_pres c c1 h).2.2.2.2.2.2.2.2.2.2.2.1
    unfold deleteDecoder
    rw [if_pos hdel]
  · intro c1 hdel hstate h
    unfold deleteDecoder at h
    rw [if_neg (by simp [hdel])] at h
    rw [cascadeFrom_spec _ _ _ h]
    refine ⟨?_, rfl, ?_⟩
    · show (if c.state + 1 < CS_MAX then CS_MAX - 1 else c.state) = CS_DESTROYED
      split
      next => decide
      next hni =>
        simp only [CS_MAX, CS_DESTROYED] at hstate hni ⊢
        omega
    · show stateNotifications
        ((c.effs ++ [Eff.destroy] ++
          c.outstandingTextureIds.map Eff.deleteTexture) ++
          (List.range' (c.state + 1) (CS_MAX - (c.state + 1))).map Eff.notify) =
        stateNotifications c.effs ++
          List.range' (c.state + 1) (CS_DESTROYED - c.state)
      rw [stateNotifications_append, stateNotifications_append,
        stateNotifications_append, stateNotifications_map_notify,
        stateNotifications_map_deleteTexture,
        show stateNotifications [Eff.destroy] = [] from rfl]
      rw [show CS_MAX - (c.state + 1) = CS_DESTROYED - c.state by
        simp only [CS_MAX, CS_DESTROYED]
        omega]
      simp

/-- Concrete client for the C6 witness: live decoder in `CS_RESET`, one
outstanding texture, one remaining play-through (so the cascade cannot hit
the delete-decoder trigger's failing `CHECK`). -/
def cExC6 : Client :=
  { encodedData := [7, 7], numInFlightDecodes := 1, outstandingDecodes := 0,
    nextPosToDecode := 2, nextBitstreamBufferId := 3, decoderDeleted := false,
    outstandingTextureIds := [100], remainingPlayThroughs := 1,
    resetAfterFrameNum := -1, deleteDecoderState := 6, state := 6,
    numSkippedFragments := 0, numQueuedFragments := 1, numDecodedFrames := 2,
    numDoneBitstreamBuffers := 2, pictureBuffersById := [(0, 100)],
    profile := 12, suppressRendering := true, delayReuseAfterFrameNum := 100,
    effs := [] }

/-- `cExC6` after a forced destroy: decoder gone, textures deleted, state
cascaded to `CS_DESTROYED`. -/
def cExC6post : Client :=
  { cExC6 with
    encodedData := []
    decoderDeleted := true
    outstandingTextureIds := []
    state := 8
    effs := [Eff.destroy, Eff.deleteTexture 100, Eff.notify 7, Eff.notify 8] }

theorem C6_destroy_idempotent_cascade_witness :
    deleteDecoder cExC6 = some cExC6post ∧
    deleteDecoder cExC6post = some cExC6post ∧
    cExC6post.state = CS_DESTROYED ∧
    cExC6post.decoderDeleted = true ∧
    stateNotifications cExC6post.effs = stateNotifications cExC6.effs ++
      List.range' (cExC6.state + 1) (CS_DESTROYED - cExC6.state) := by
  have h : deleteDecoder cExC6 = some cExC6post := by
    simp [deleteDecoder, cascadeFrom, cExC6, cExC6post, CS_MAX]
  have hparts := (C6_destroy_idempotent_cascade cExC6).2 cExC6post (by decide)
    (by decide) h
  exact ⟨h, (C6_destroy_idempotent_cascade cExC6).1 cExC6post h, hparts.1,
    hparts.2.1, hparts.2.2⟩

/-! ## Claim C5: reset-after-frame-N -/

/-- Concrete client for the C5 counterexample: last play-through
(`remaining_play_throughs_ == 1`), reset-after-frame-1 configured, zero
frames decoded so far, driver in `CS_INITIALIZED`. -/
def cExC5 : Client :=
  { encodedData := [], numInFlightDecodes := 1, outstandingDecodes := 1,
    nextPosToDecode := 9, nextBitstreamBufferId := 5, decoderDeleted := false,
    outstandingTextureIds := [100], remainingPlayThroughs := 1,
    resetAfterFrameNum := 1, deleteDecoderState := 6, state := 2,
    numSkippedFragments := 0, numQueuedFragments := 0, numDecodedFrames := 0,
    numDoneBitstreamBuffers := 0, pictureBuffersById := [(0, 100)],
    profile := 12, suppressRendering := true, delayReuseAfterFrameNum := 100,
    effs := [] }

/-- **C5 (counterexample)**: when the Nth (here: first) decoded-frame
callback fires with the reset-after-frame-N policy active in the last
play-through, the driver requests `decoder_->Reset()` and zeroes the stream
cursor, but its observable state stays `CS_INITIALIZED` — it is never forced
to the `CS_RESETTING` state (which only `NotifyFlushDone` enters). -/
theorem C5_counterexample :
    (pictureReady cExC5 ⟨0, 0⟩).map Client.state = some CS_INITIALIZED ∧
    (pictureReady cExC5 ⟨0, 0⟩).map Client.resetAfterFrameNum =
      some MID_STREAM_RESET ∧
    (pictureReady cExC5 ⟨0, 0⟩).map Client.nextPosToDecode = some 0 ∧
    (pictureReady cExC5 ⟨0, 0⟩).map Client.effs =
      some [Eff.reset, Eff.reuse 0] ∧
    CS_INITIALIZED ≠ CS_RESETTING := by
  decide

/-- **C5 (amended)**: when the reset-after-frame-N policy is configured and
the run is in its last play-through, the Nth decoded-frame callback makes
the driver request a decoder reset (marking the policy consumed with the
`MID_STREAM_RESET` sentinel) and set the stream cursor back to byte offset
zero, while the observable state is unchanged (no transition to Resetting);
once the reset completes, `NotifyResetDone` immediately resubmits, fetching
the first fragment from byte offset zero of the stream. -/
theorem C5_mid_stream_reset_amended (c c3 : Client) (pic : Picture) (tex : Nat)
    (hstate : c.state < CS_RESET) (hdel : c.decoderDeleted = false)
    (hbits : pic.bitstreamBufferId ≤ c.nextBitstreamBufferId)
    (hrem : c.remainingPlayThroughs = 1)
    (hreset : c.resetAfterFrameNum = ((c.numDecodedFrames + 1 : Nat) : Int))
    (htex : c.pictureBuffersById.lookup pic.pictureBufferId = some tex) :
    (pictureReady c pic).isSome = true ∧
    (∀ c2, pictureReady c pic = some c2 →
      c2.resetAfterFrameNum = MID_STREAM_RESET ∧
      c2.nextPosToDecode = 0 ∧
      c2.state = c.state ∧
      c2.numDecodedFrames = c.numDecodedFrames + 1 ∧
      c2.effs.count Eff.reset = c.effs.count Eff.reset + 1) ∧
    (c3.decoderDeleted = false → c3.resetAfterFrameNum = MID_STREAM_RESET →
      notifyResetDone c3 =
        decodeNextFragment
          { c3 with resetAfterFrameNum := END_OF_STREAM_RESET }) ∧
    (∀ c4 r, c3.decoderDeleted = false →
      c3.resetAfterFrameNum = MID_STREAM_RESET → c3.nextPosToDecode = 0 →
      c3.encodedData.length ≠ 0 →
      getBytesForFirstFragment c3.profile c3.encodedData 0 = some r →
      notifyResetDone c3 = some c4 →
      Eff.decode c3.nextBitstreamBufferId r.bytes ∈ c4.effs ∧
      c4.nextPosToDecode = r.endPos ∧
      c4.outstandingDecodes = c3.outstandingDecodes + 1 ∧
      c4.resetAfterFrameNum = END_OF_STREAM_RESET) := by
  have hpart2 : c3.decoderDeleted = false →
      c3.resetAfterFrameNum = MID_STREAM_RESET →
      notifyResetDone c3 =
        decodeNextFragment
          { c3 with resetAfterFrameNum := END_OF_STREAM_RESET } := by
    intro hd3 hmid
    unfold notifyResetDone
    rw [if_neg (by simp [hd3]), if_pos (by simp [hmid])]
  refine ⟨?_, ?_, hpart2, ?_⟩
  · by_cases hsup : c.suppressRendering <;>
    by_cases hdelay :
        c.delayReuseAfterFrameNum < (c.numDecodedFrames : Int) + 1 <;>
      simp [pictureReady, hstate, hdel, hbits, hrem, hreset, htex, hsup, hdelay]
  · intro c2 h
    by_cases hsup : c.suppressRendering <;>
    by_cases hdelay :
        c.delayReuseAfterFrameNum < (c.numDecodedFrames : Int) + 1 <;>
      simp [pictureReady, hstate, hdel, hbits, hrem, hreset, htex, hsup,
        hdelay] at h <;>
      rw [← h] <;>
      refine ⟨rfl, rfl, rfl, rfl, ?_⟩ <;>
      simp [List.count_append, List.count_cons, List.count_nil, beq_iff_eq]
  · intro c4 r hd3 hmid hpos hlen hfetch hrd
    rw [hpart2 hd3 hmid] at hrd
    obtain ⟨_, _, q3, _, _, _, q7, _⟩ := decodeNextFragment_spec _ c4 hrd
    have hne : ({ c3 with resetAfterFrameNum := END_OF_STREAM_RESET } :
        Client).nextPosToDecode ≠
        ({ c3 with resetAfterFrameNum := END_OF_STREAM_RESET } :
          Client).encodedData.length := by
      show c3.nextPosToDecode ≠ c3.encodedData.length
      omega
    have hfetch2 : (if (({ c3 with
        resetAfterFrameNum := END_OF_STREAM_RESET } : Client).nextPosToDecode
          == 0) = true then
        getBytesForFirstFragment
          ({ c3 with resetAfterFrameNum := END_OF_STREAM_RESET } :
            Client).profile
          ({ c3 with resetAfterFrameNum := END_OF_STREAM_RESET } :
            Client).encodedData 0
      else
        getBytesForNextFragment
          ({ c3 with resetAfterFrameNum := END_OF_STREAM_RESET } :
            Client).profile
          ({ c3 with resetAfterFrameNum := END_OF_STREAM_RESET } :
            Client).encodedData
          ({ c3 with resetAfterFrameNum := END_OF_STREAM_RESET } :
            Client).nextPosToDecode) = some r := by
      show (if (c3.nextPosToDecode == 0) = true then
          getBytesForFirstFragment c3.profile c3.encodedData 0
        else
          getBytesForNextFragment c3.profile c3.encodedData
            c3.nextPosToDecode) = some r
      rw [if_pos (by simp [hpos])]
      exact hfetch
    obtain ⟨m1, m2, m3, _, _⟩ := q7 r hd3 hne hfetch2
    exact ⟨m1, m2, q3 hd3 hne, m3⟩

/-- Concrete client for the C5 witness, mid-stream-reset marker set and
cursor already back at zero, awaiting `NotifyResetDone`. -/
def c3ExC5 : Client :=
  { encodedData := dExC8W, numInFlightDecodes := 1, outstandingDecodes := 0,
    nextPosToDecode := 0, nextBitstreamBufferId := 7, decoderDeleted := false,
    outstandingTextureIds := [], remainingPlayThroughs := 1,
    resetAfterFrameNum := -2, deleteDecoderState := 6, state := 2,
    numSkippedFragments := 0, numQueuedFragments := 0, numDecodedFrames := 1,
    numDoneBitstreamBuffers := 0, pictureBuffersById := [], profile := 12,
    suppressRendering := true, delayReuseAfterFrameNum := 100, effs := [] }

/-- `c3ExC5` after the reset completes: the fragment at byte offset zero is
resubmitted. -/
def c4ExC5 : Client :=
  { c3ExC5 with
    outstandingDecodes := 1
    nextPosToDecode := 46
    nextBitstreamBufferId := 8
    resetAfterFrameNum := -1
    numQueuedFragments := 1
    effs := [Eff.decode 7 [171, 205]] }

theorem C5_mid_stream_reset_amended_witness :
    (pictureReady cExC5 ⟨0, 0⟩).isSome = true ∧
    notifyResetDone c3ExC5 = some c4ExC5 ∧
    Eff.decode c3ExC5.nextBitstreamBufferId [171, 205] ∈ c4ExC5.effs ∧
    c4ExC5.nextPosToDecode = 46 ∧
    c4ExC5.outstandingDecodes = c3ExC5.outstandingDecodes + 1 ∧
    c4ExC5.resetAfterFrameNum = END_OF_STREAM_RESET := by
  have hr : notifyResetDone c3ExC5 = some c4ExC5 := by decide
  have hparts := (C5_mid_stream_reset_amended cExC5 c3ExC5 ⟨0, 0⟩ 100
    (by decide) (by decide) (by decide) (by decide) (by decide)
    (by decide)).2.2.2 c4ExC5
    { bytes := [171, 205], endPos := 46, skipped := 0, queued := 1 }
    (by decide) (by decide) (by decide) (by decide) (by decide) hr
  exact ⟨(C5_mid_stream_reset_amended cExC5 c3ExC5 ⟨0, 0⟩ 100 (by decide)
      (by decide) (by decide) (by decide) (by decide) (by decide)).1,
    hr, hparts.1, hparts.2.1, hparts.2.2.1, hparts.2.2.2⟩

/-! ## Claim C9: the picture-buffer pool -/

theorem lookup_none_keys {l : List (Nat × Nat)} {k : Nat}
    (h : l.lookup k = none) : k ∉ l.map Prod.fst := by
  induction l with
  | nil => exact fun hc => absurd hc (List.not_mem_nil k)
  | cons p l ih =>
    simp only [List.lookup] at h
    simp only [List.map_cons, List.mem_cons]
    rcases hk : (k == p.1) with _ | _
    · rw [hk] at h
      intro hcase
      rcases hcase with hc | hc
      · rw [beq_eq_false_iff_ne] at hk
        exact hk hc
      · exact ih h hc
    · rw [hk] at h
      exact absurd h (by simp)

theorem lookup_some_mem {l : List (Nat × Nat)} {k v : Nat}
    (h : l.lookup k = some v) : (k, v) ∈ l := by
  induction l with
  | nil => exact Option.noConfusion h
  | cons p l ih =>
    simp only [List.lookup] at h
    rcases hk : (k == p.1) with _ | _
    · rw [hk] at h
      exact List.mem_cons_of_mem _ (ih h)
    · rw [hk] at h
      simp only [Option.some.injEq] at h
      simp only [beq_iff_eq] at hk
      obtain ⟨a, b⟩ := p
      rw [List.mem_cons]
      left
      simp only at h hk
      subst h
      subst hk
      rfl

/-- The pool invariant of one client: the set of outstanding render-target
(texture) handles equals the set of render targets backing the
currently-allocated picture-buffer ids, and exactly one buffer exists per
live id (and per texture). -/
def poolInv (c : Client) : Prop :=
  (∀ t, t ∈ c.outstandingTextureIds ↔ t ∈ c.pictureBuffersById.map Prod.snd) ∧
  c.outstandingTextureIds.Nodup ∧
  (c.pictureBuffersById.map Prod.fst).Nodup ∧
  (c.pictureBuffersById.map Prod.snd).Nodup

theorem provideLoop_inv : ∀ (ts : List Nat) (c c2 : Client), poolInv c →
    provideLoop c ts = some c2 → poolInv c2 := by
  intro ts
  induction ts with
  | nil =>
    intro c c2 hinv h
    simp only [provideLoop, Option.some.injEq] at h
    rw [← h]
    exact hinv
  | cons t ts ih =>
    intro c c2 hinv h
    obtain ⟨hiff, hnd, hkeys, hvals⟩ := hinv
    unfold provideLoop at h
    split at h
    next => exact absurd h (by simp)
    next hmem =>
      split at h
      next => exact absurd h (by simp)
      next hlk =>
        refine ih _ c2 ?_ h
        have hid : c.pictureBuffersById.length ∉
            c.pictureBuffersById.map Prod.fst :=
          lookup_none_keys (Option.not_isSome_iff_eq_none.mp hlk)
        have htv : t ∉ c.pictureBuffersById.map Prod.snd :=
          fun hc => hmem ((hiff t).mpr hc)
        refine ⟨?_, ?_, ?_, ?_⟩
        · intro x
          show x ∈ c.outstandingTextureIds ++ [t] ↔
            x ∈ (c.pictureBuffersById ++
              [(c.pictureBuffersById.length, t)]).map Prod.snd
          rw [List.map_append, List.mem_append, List.mem_append, hiff x]
          simp only [List.map_cons, List.map_nil]
        · show (c.outstandingTextureIds ++ [t]).Nodup
          rw [List.nodup_append]
          exact ⟨hnd, List.nodup_singleton t, by
            intro a ha hat
            simp only [List.mem_singleton] at hat
            exact hmem (hat ▸ ha)⟩
        · show ((c.pictureBuffersById ++
            [(c.pictureBuffersById.length, t)]).map Prod.fst).Nodup
          rw [List.map_append, List.nodup_append]
          exact ⟨hkeys, List.nodup_singleton _, by
            intro a ha hat
            simp only [List.map_cons, List.map_nil, List.mem_singleton] at hat
            exact hid (hat ▸ ha)⟩
        · show ((c.pictureBuffersById ++
            [(c.pictureBuffersById.length, t)]).map Prod.snd).Nodup
          rw [List.map_append, List.nodup_append]
          exact ⟨hvals, List.nodup_singleton _, by
            intro a ha hat
            simp only [List.map_cons, List.map_nil, List.mem_singleton] at hat
            exact htv (hat ▸ ha)⟩

theorem dismissPictureBuffer_inv (c c2 : Client) (id : Nat) (hinv : poolInv c)
    (h : dismissPictureBuffer c id = some c2) : poolInv c2 := by
  obtain ⟨hiff, hnd, hkeys, hvals⟩ := hinv
  unfold dismissPictureBuffer at h
  split at h
  next => exact absurd h (by simp)
  next tex hlk =>
    split at h
    next hmem =>
      simp only [Option.some.injEq] at h
      obtain ⟨m1, m2, hm⟩ := List.append_of_mem (lookup_some_mem hlk)
      rw [hm, List.map_append, List.nodup_append] at hkeys
      obtain ⟨hk1, hk2c, hkdisj⟩ := hkeys
      simp only [List.map_cons] at hk2c hkdisj
      rw [List.nodup_cons] at hk2c
      obtain ⟨hid2, hk2⟩ := hk2c
      have hid1 : id ∉ m1.map Prod.fst :=
        fun hc => hkdisj hc (List.mem_cons_self _ _)
      rw [hm, List.map_append, List.nodup_append] at hvals
      obtain ⟨hv1, hv2c, hvdisj⟩ := hvals
      simp only [List.map_cons] at hv2c hvdisj
      rw [List.nodup_cons] at hv2c
      obtain ⟨htex2, hv2⟩ := hv2c
      have htex1 : tex ∉ m1.map Prod.snd :=
        fun hc => hvdisj hc (List.mem_cons_self _ _)
      have hfilter : c.pictureBuffersById.filter (fun p => p.1 ≠ id) =
          m1 ++ m2 := by
        rw [hm, List.filter_append]
        have h1 : m1.filter (fun p => decide (p.1 ≠ id)) = m1 := by
          rw [List.filter_eq_self]
          intro p hp
          simp only [decide_eq_true_eq]
          exact fun hpid => hid1 (List.mem_map.mpr ⟨p, hp, hpid⟩)
        have h2 : (((id, tex) :: m2).filter fun p => decide (p.1 ≠ id)) =
            m2 := by
          rw [List.filter_cons]
          rw [if_neg (by simp)]
          rw [List.filter_eq_self]
          intro p hp
          simp only [decide_eq_true_eq]
          exact fun hpid => hid2 (List.mem_map.mpr ⟨p, hp, hpid⟩)
        rw [h1, h2]
      rw [← h]
      refine ⟨?_, ?_, ?_, ?_⟩
      · intro x
        show x ∈ c.outstandingTextureIds.erase tex ↔
          x ∈ (c.pictureBuffersById.filter fun p => p.1 ≠ id).map Prod.snd
        rw [hfilter, hnd.mem_erase_iff, hiff x, hm, List.map_append,
          List.map_append, List.mem_append, List.mem_append]
        simp only [List.map_cons, List.mem_cons]
        constructor
        · rintro ⟨hne, hA | (heq | hB)⟩
          · exact Or.inl hA
          · exact absurd heq hne
          · exact Or.inr hB
        · intro hAB
          refine ⟨?_, ?_⟩
          · rintro rfl
            rcases hAB with hA | hB
            · exact htex1 hA
            · exact htex2 hB
          · rcases hAB with hA | hB
            · exact Or.inl hA
            · exact Or.inr (Or.inr hB)
      · exact hnd.erase tex
      · show ((c.pictureBuffersById.filter fun p => p.1 ≠ id).map
          Prod.fst).Nodup
        rw [hfilter, List.map_append, List.nodup_append]
        exact ⟨hk1, hk2,
          fun a ha hb => hkdisj ha (List.mem_cons_of_mem _ hb)⟩
      · show ((c.pictureBuffersById.filter fun p => p.1 ≠ id).map
          Prod.snd).Nodup
        rw [hfilter, List.map_append, List.nodup_append]
        exact ⟨hv1, hv2,
          fun a ha hb => hvdisj ha (List.mem_cons_of_mem _ hb)⟩
    next => exact absurd h (by simp)

theorem destroyClient_inv (c c2 : Client)
    (hteardown : c.decoderDeleted = true → c.outstandingTextureIds = [])
    (h : destroyClient c = some c2) : poolInv c2 := by
  unfold destroyClient at h
  split at h
  next => exact absurd h (by simp)
  next c1 hdd =>
    have hout : c1.outstandingTextureIds = [] := by
      unfold deleteDecoder at hdd
      split at hdd
      next hdel =>
        simp only [Option.some.injEq] at hdd
        rw [← hdd]
        exact hteardown hdel
      next hdel =>
        rw [cascadeFrom_spec _ _ _ hdd]
    have hdel1 : c1.decoderDeleted = true :=
      (deleteDecoder_pres c c1 hdd).2.2.2.2.2.2.2.2.2.2.2.1
    rw [if_neg (by simp [hdel1])] at h
    unfold setState at h
    split at h
    next =>
      exact absurd h (by simp)
    next =>
      simp only [Option.some.injEq] at h
      rw [← h]
      refine ⟨?_, ?_, ?_, ?_⟩
      · intro t
        show t ∈ c1.outstandingTextureIds ↔ t ∈ ([] : List (Nat × Nat)).map
          Prod.snd
        rw [hout]
        exact Iff.rfl
      · show c1.outstandingTextureIds.Nodup
        rw [hout]
        exact List.nodup_nil
      · exact List.nodup_nil
      · exact List.nodup_nil

/-- **C9**: after every pool operation — allocate (`ProvidePictureBuffers`),
dismiss (`DismissPictureBuffer`), and teardown (destruction of the client:
`DeleteDecoder` followed by deletion of the remaining `PictureBuffer`s) — the
set of outstanding render-target handles equals the set of render targets
backing the currently-allocated PictureBuffer ids, and exactly one
PictureBuffer exists per live id.  For teardown, the state must satisfy the
code's own discipline that a deleted decoder has no outstanding textures
(`DeleteDecoder` clears them). -/
theorem C9_pool_invariant (c : Client) :
    (∀ texIds c2, poolInv c → providePictureBuffers c texIds = some c2 →
      poolInv c2) ∧
    (∀ id c2, poolInv c → dismissPictureBuffer c id = some c2 → poolInv c2) ∧
    (∀ c2, (c.decoderDeleted = true → c.outstandingTextureIds = []) →
      destroyClient c = some c2 → poolInv c2) := by
  refine ⟨?_, fun id c2 hinv h => dismissPictureBuffer_inv c c2 id hinv h,
    fun c2 ht h => destroyClient_inv c c2 ht h⟩
  intro texIds c2 hinv h
  unfold providePictureBuffers at h
  split at h
  next =>
    simp only [Option.some.injEq] at h
    rw [← h]
    exact hinv
  next =>
    split at h
    next => exact absurd h (by simp)
    next c1 hpl =>
      simp only [Option.some.injEq] at h
      have hinv1 := provideLoop_inv texIds c c1 hinv hpl
      rw [← h]
      exact hinv1

/-- Concrete client for the C9 witness: two allocated picture buffers
backed by textures 100 and 101. -/
def cExC9 : Client :=
  { encodedData := [7, 7], numInFlightDecodes := 1, outstandingDecodes := 0,
    nextPosToDecode := 2, nextBitstreamBufferId := 3, decoderDeleted := false,
    outstandingTextureIds := [100, 101], remainingPlayThroughs := 1,
    resetAfterFrameNum := -1, deleteDecoderState := 6, state := 2,
    numSkippedFragments := 0, numQueuedFragments := 1, numDecodedFrames := 2,
    numDoneBitstreamBuffers := 2, pictureBuffersById := [(0, 100), (1, 101)],
    profile := 12, suppressRendering := true, delayReuseAfterFrameNum := 100,
    effs := [] }

/-- `cExC9` after allocating one more buffer (texture 200). -/
def cExC9prov : Client :=
  { cExC9 with
    outstandingTextureIds := [100, 101, 200]
    pictureBuffersById := [(0, 100), (1, 101), (2, 200)]
    effs := [Eff.createTexture 200, Eff.assignBuffers 1] }

/-- `cExC9` after dismissing picture buffer 0. -/
def cExC9dism : Client :=
  { cExC9 with
    outstandingTextureIds := [101]
    pictureBuffersById := [(1, 101)]
    effs := [Eff.deleteTexture 100] }

/-- `cExC9` after full teardown. -/
def cExC9dest : Client :=
  { cExC9 with
    encodedData := []
    decoderDeleted := true
    outstandingTextureIds := []
    state := 8
    pictureBuffersById := []
    effs := [Eff.destroy, Eff.deleteTexture 100, Eff.deleteTexture 101,
      Eff.notify 3, Eff.notify 4, Eff.notify 5, Eff.notify 6, Eff.notify 7,
      Eff.notify 8, Eff.notify 8] }

theorem C9_pool_invariant_witness :
    providePictureBuffers cExC9 [200] = some cExC9prov ∧ poolInv cExC9prov ∧
    dismissPictureBuffer cExC9 0 = some cExC9dism ∧ poolInv cExC9dism ∧
    destroyClient cExC9 = some cExC9dest ∧ poolInv cExC9dest := by
  have hinv : poolInv cExC9 := ⟨fun t => Iff.rfl, by decide, by decide,
    by decide⟩
  have hp : providePictureBuffers cExC9 [200] = some cExC9prov := by decide
  have hd : dismissPictureBuffer cExC9 0 = some cExC9dism := by decide
  have hx : destroyClient cExC9 = some cExC9dest := by
    simp [destroyClient, deleteDecoder, cascadeFrom, setState, cExC9,
      cExC9dest, CS_MAX, CS_DESTROYED]
  exact ⟨hp, (C9_pool_invariant cExC9).1 [200] cExC9prov hinv hp,
    hd, (C9_pool_invariant cExC9).2.1 0 cExC9dism hinv hd,
    hx, (C9_pool_invariant cExC9).2.2 cExC9dest (by decide) hx⟩

end VDATest
